import Mathlib

/-!
Verification of the vibe-relay orchestration core against its specification.

This file shallowly embeds the persistent data model (SQLite tables become
lists of records), the step-transition state machine, the dependency engine,
the tool surface operations, the trigger processor decision logic, and the
agent runner session-capture logic of the vibe-relay repository, and proves
or refutes the frozen claims about them.

Modelling conventions:
- Machine rows are records; a table is a list of rows in insertion order.
- SQL point lookups (WHERE id = ?) become List.find? on the primary key.
- UUID generation is modelled by an explicit generator stream
  (gen : Nat -> String) threaded through each operation in call order;
  timestamps are explicit `now` arguments.
- Fallible tool operations return Except ToolError DB.  An error result
  models the Python code path that returns a tagged error dict before
  calling conn.commit, so the committed database is unchanged; an ok
  result carries the committed database.  Uncaught Python exceptions on
  dangling foreign keys are modelled by the distinguished kind ErrKind.crash;
  theorems carry well-formedness hypotheses that keep the code away from
  those paths, exactly as the enforced foreign keys do in the source.
- Event ids and the exact human-readable message strings are irrelevant to
  every claim; messages are abbreviated but the error kinds are exact.
-/

namespace VibeRelay

/-- Value of a JSON payload field: a string, an integer, or a list of ids. -/
inductive JsonVal where
  | str (s : String)
  | num (n : Nat)
  | ids (l : List String)
  deriving Repr, DecidableEq

/-- Event payloads are JSON objects, modelled as association lists. -/
abbrev Payload := List (String × JsonVal)

/-- Lookup of a payload field, mirroring Python dict.get. -/
def Payload.get (p : Payload) (k : String) : Option JsonVal :=
  (p.find? (fun kv => kv.1 = k)).map (fun kv => kv.2)

/-- Lookup of a payload field expected to hold a string. -/
def Payload.getStr (p : Payload) (k : String) : Option String :=
  match p.get k with
  | some (JsonVal.str s) => some s
  | _ => none

/-- Row of the projects table. -/
structure Project where
  id : String
  title : String
  description : String
  repo_path : Option String
  base_branch : Option String
  status : String
  created_at : String
  updated_at : String
  deriving Repr, DecidableEq

/-- Row of the workflow_steps table.  A step is an agent step iff
system_prompt is non-null. -/
structure WorkflowStep where
  id : String
  project_id : String
  name : String
  position : Nat
  system_prompt : Option String
  model : Option String
  color : Option String
  created_at : String
  deriving Repr, DecidableEq

/-- Row of the tasks table. -/
structure Task where
  id : String
  project_id : String
  parent_task_id : Option String
  title : String
  description : String
  step_id : String
  cancelled : Bool
  type : String
  plan_approved : Bool
  output : Option String
  worktree_path : Option String
  branch : Option String
  session_id : Option String
  created_at : String
  updated_at : String
  deriving Repr, DecidableEq

/-- Row of the comments table. -/
structure Comment where
  id : String
  task_id : String
  author_role : String
  content : String
  created_at : String
  deriving Repr, DecidableEq

/-- Row of the agent_runs table.  A run is active iff completed_at is null. -/
structure AgentRun where
  id : String
  task_id : String
  step_id : String
  started_at : String
  completed_at : Option String
  exit_code : Option Int
  error : Option String
  deriving Repr, DecidableEq

/-- Row of the task_dependencies table: a directed edge
predecessor -> successor. -/
structure TaskDependency where
  id : String
  predecessor_id : String
  successor_id : String
  created_at : String
  deriving Repr, DecidableEq

/-- Row of the events table with its two independent consumption flags. -/
structure Event where
  id : String
  type : String
  payload : Payload
  created_at : String
  consumed : Bool
  trigger_consumed : Bool
  deriving Repr, DecidableEq

/-- The whole store: one list per table, each in insertion order. -/
structure DB where
  projects : List Project
  workflow_steps : List WorkflowStep
  tasks : List Task
  comments : List Comment
  agent_runs : List AgentRun
  task_dependencies : List TaskDependency
  events : List Event
  deriving Repr, DecidableEq

/-- Point lookup of a project by primary key. -/
def DB.findProject (db : DB) (pid : String) : Option Project :=
  db.projects.find? (fun p => p.id = pid)

/-- Point lookup of a workflow step by primary key. -/
def DB.findStep (db : DB) (sid : String) : Option WorkflowStep :=
  db.workflow_steps.find? (fun s => s.id = sid)

/-- Point lookup of a task by primary key. -/
def DB.findTask (db : DB) (tid : String) : Option Task :=
  db.tasks.find? (fun t => t.id = tid)

/-- Point lookup of a dependency edge by primary key. -/
def DB.findDependency (db : DB) (did : String) : Option TaskDependency :=
  db.task_dependencies.find? (fun d => d.id = did)

/-- SQL UPDATE tasks SET ... WHERE id = ?. -/
def DB.updateTask (db : DB) (tid : String) (f : Task → Task) : DB :=
  { db with tasks := db.tasks.map (fun t => if t.id = tid then f t else t) }

/-- Embeds emit_event from vibe_relay/mcp/events.py: INSERT INTO events with
both consumption flags defaulting to false.  The uuid and timestamp of the
row are supplied by the caller. -/
def emit_event (db : DB) (eid : String) (now : String) (ty : String)
    (payload : Payload) : DB :=
  { db with events := db.events ++ [⟨eid, ty, payload, now, false, false⟩] }

/-- SQL SELECT MAX(position) FROM workflow_steps WHERE project_id = ?. -/
def maxPosition (db : DB) (pid : String) : Option Nat :=
  ((db.workflow_steps.filter (fun s => s.project_id = pid)).map
    (fun s => s.position)).max?

/-- SQL SELECT ... FROM workflow_steps WHERE project_id = ?
ORDER BY position DESC LIMIT 1 (positions are unique per project). -/
def terminalStep (db : DB) (pid : String) : Option WorkflowStep :=
  (db.workflow_steps.filter (fun s => s.project_id = pid)).foldl
    (fun acc s =>
      match acc with
      | none => some s
      | some b => if s.position > b.position then some s else acc) none

/-- SQL SELECT id FROM workflow_steps WHERE project_id = ? AND position = ?. -/
def stepAtPosition (db : DB) (pid : String) (pos : Nat) : Option WorkflowStep :=
  db.workflow_steps.find? (fun s => s.project_id = pid ∧ s.position = pos)

/-- Error kinds of the tool surface, plus a distinguished crash kind that
models an uncaught Python exception on a dangling foreign key. -/
inductive ErrKind where
  | not_found
  | invalid_input
  | invalid_transition
  | invalid_role
  | crash
  deriving Repr, DecidableEq

/-- Tagged error returned across the tool surface boundary. -/
structure ToolError where
  kind : ErrKind
  message : String
  deriving Repr, DecidableEq

/-- Outcome of validate_step_transition: either an invalid transition (the
InvalidTransitionError exception) or a crash on a dangling current step. -/
inductive VErr where
  | invalid (msg : String)
  | crash (msg : String)
  deriving Repr, DecidableEq

/-- Info dict returned by validate_step_transition on success. -/
structure TransitionInfo where
  task_id : String
  project_id : String
  current_step_id : String
  current_step_name : String
  current_position : Nat
  target_step_id : String
  target_step_name : String
  target_position : Nat
  deriving Repr, DecidableEq

/-- Embeds validate_step_transition from db/state_machine.py.  Movement
rules: forward only to position + 1, backward to any position < current,
same position rejected, cross-project rejected, cancelled tasks rejected. -/
def validate_step_transition (db : DB) (task_id target_step_id : String) :
    Except VErr TransitionInfo :=
  match db.findTask task_id with
  | none => Except.error (VErr.invalid ("Task not found"))
  | some task =>
    if task.cancelled then
      Except.error (VErr.invalid ("Task is cancelled. Uncancel it before moving."))
    else
      match db.findStep task.step_id with
      | none => Except.error (VErr.crash ("current step row is missing"))
      | some current_step =>
        match db.findStep target_step_id with
        | none => Except.error (VErr.invalid ("Target step not found"))
        | some target_step =>
          if target_step.project_id ≠ task.project_id then
            Except.error (VErr.invalid ("Target step belongs to a different project"))
          else if target_step.position = current_step.position then
            Except.error (VErr.invalid ("Task is already at this step"))
          else if target_step.position > current_step.position ∧
              target_step.position ≠ current_step.position + 1 then
            Except.error (VErr.invalid ("Cannot skip steps. Only the next step is allowed."))
          else
            Except.ok
              { task_id := task_id
                project_id := task.project_id
                current_step_id := current_step.id
                current_step_name := current_step.name
                current_position := current_step.position
                target_step_id := target_step.id
                target_step_name := target_step.name
                target_position := target_step.position }

/-- Python truthiness of an optional string: None and the empty string are
falsy, every other string is truthy. -/
def optTruthy : Option String → Bool
  | none => false
  | some s => s ≠ ""

/-- Embeds cancel_task from db/state_machine.py (imported into the tool
surface as _validate_cancel): rejects a missing or already-cancelled task. -/
def validate_cancel (db : DB) (task_id : String) : Except VErr Unit :=
  match db.findTask task_id with
  | none => Except.error (VErr.invalid ("Task not found"))
  | some task =>
    if task.cancelled then Except.error (VErr.invalid ("Task is already cancelled"))
    else Except.ok ()

/-- Embeds uncancel_task from db/state_machine.py (imported into the tool
surface as _validate_uncancel): rejects a missing or non-cancelled task. -/
def validate_uncancel (db : DB) (task_id : String) : Except VErr Unit :=
  match db.findTask task_id with
  | none => Except.error (VErr.invalid ("Task not found"))
  | some task =>
    if task.cancelled then Except.ok ()
    else Except.error (VErr.invalid ("Task is not cancelled"))

/-- Nine-field task_moved payload built by move_task from the validation
info, exactly the dict literal in tools.py. -/
def moveTaskPayload (task_id target_step_id : String) (info : TransitionInfo) :
    Payload :=
  [("task_id", JsonVal.str task_id),
   ("old_step_id", JsonVal.str info.current_step_id),
   ("new_step_id", JsonVal.str target_step_id),
   ("project_id", JsonVal.str info.project_id),
   ("from_step_name", JsonVal.str info.current_step_name),
   ("to_step_name", JsonVal.str info.target_step_name),
   ("from_position", JsonVal.num info.current_position),
   ("to_position", JsonVal.num info.target_position),
   ("direction", JsonVal.str
     (if info.target_position > info.current_position then ("forward")
      else ("backward")))]

/-- Embeds move_task from vibe_relay/mcp/tools.py: run the state machine
validation, update the task row, emit one task_moved event, commit.  The
InvalidTransitionError is caught and surfaced as the invalid_transition
error kind.  The enriched row returned to the caller is read-only and is
omitted from the model. -/
def move_task (db : DB) (gen : Nat → String) (now : String)
    (task_id target_step_id : String) : Except ToolError DB :=
  match validate_step_transition db task_id target_step_id with
  | Except.error (VErr.invalid m) => Except.error ⟨ErrKind.invalid_transition, m⟩
  | Except.error (VErr.crash m) => Except.error ⟨ErrKind.crash, m⟩
  | Except.ok info =>
    let db1 := db.updateTask task_id
      (fun t => { t with step_id := target_step_id, updated_at := now })
    Except.ok (emit_event db1 (gen 0) now ("task_moved")
      (moveTaskPayload task_id target_step_id info))

/-- Embeds cancel_task from vibe_relay/mcp/tools.py: validate via the state
machine, set the cancelled flag, emit one task_cancelled event, commit. -/
def cancel_task (db : DB) (gen : Nat → String) (now : String)
    (task_id : String) : Except ToolError DB :=
  match validate_cancel db task_id with
  | Except.error (VErr.invalid m) => Except.error ⟨ErrKind.invalid_transition, m⟩
  | Except.error (VErr.crash m) => Except.error ⟨ErrKind.crash, m⟩
  | Except.ok _ =>
    let db1 := db.updateTask task_id
      (fun t => { t with cancelled := true, updated_at := now })
    Except.ok (emit_event db1 (gen 0) now ("task_cancelled")
      [("task_id", JsonVal.str task_id)])

/-- Embeds uncancel_task from vibe_relay/mcp/tools.py: validate via the
state machine, clear the cancelled flag, emit one task_uncancelled event,
commit. -/
def uncancel_task (db : DB) (gen : Nat → String) (now : String)
    (task_id : String) : Except ToolError DB :=
  match validate_uncancel db task_id with
  | Except.error (VErr.invalid m) => Except.error ⟨ErrKind.invalid_transition, m⟩
  | Except.error (VErr.crash m) => Except.error ⟨ErrKind.crash, m⟩
  | Except.ok _ =>
    let db1 := db.updateTask task_id
      (fun t => { t with cancelled := false, updated_at := now })
    Except.ok (emit_event db1 (gen 0) now ("task_uncancelled")
      [("task_id", JsonVal.str task_id)])

/-- Embeds add_comment from vibe_relay/mcp/tools.py: reject an empty or
whitespace-only author role, insert the comment, emit one comment_added
event, commit. -/
def add_comment (db : DB) (gen : Nat → String) (now : String)
    (task_id content author_role : String) : Except ToolError DB :=
  if author_role = "" ∨ author_role.trim = "" then
    Except.error ⟨ErrKind.invalid_role, "author_role must be a non-empty string"⟩
  else
    match db.findTask task_id with
    | none => Except.error ⟨ErrKind.not_found, "Task not found"⟩
    | some _ =>
      let db1 := { db with comments := db.comments ++
        [⟨gen 0, task_id, author_role, content, now⟩] }
      Except.ok (emit_event db1 (gen 1) now ("comment_added")
        [("comment_id", JsonVal.str (gen 0)),
         ("task_id", JsonVal.str task_id)])

/-- SQL SELECT successor_id FROM task_dependencies WHERE predecessor_id = ?,
in table order. -/
def successorsOf (deps : List TaskDependency) (nodeId : String) : List String :=
  (deps.filter (fun d => d.predecessor_id = nodeId)).map (fun d => d.successor_id)

/-- Worklist core of has_cycle from vibe_relay/mcp/tools.py: breadth-first
search along forward edges with a visited list.  The fuel argument bounds
the number of iterations of the Python while loop; the loop pops one queue
entry per iteration, and at most one entry is enqueued per edge row plus
the initial seed, so the loop runs at most deps.length + 1 iterations and
calling the function with that much fuel computes the loop exactly
(bfsReaches_complete below proves the fuel suffices). -/
def bfsReaches (deps : List TaskDependency) (target : String) :
    Nat → List String → List String → Bool
  | 0, _, _ => false
  | _ + 1, _, [] => false
  | fuel + 1, visited, current :: queue =>
    if current = target then true
    else if visited.contains current then
      bfsReaches deps target fuel visited queue
    else
      bfsReaches deps target fuel (current :: visited)
        (queue ++ successorsOf deps current)

/-- Embeds has_cycle from vibe_relay/mcp/tools.py: BFS forward from the
successor; if the predecessor is reached, adding the edge creates a cycle. -/
def has_cycle (db : DB) (predecessor_id successor_id : String) : Bool :=
  bfsReaches db.task_dependencies predecessor_id
    (db.task_dependencies.length + 1) [] [successor_id]

/-- Embeds is_blocked from vibe_relay/mcp/tools.py: true iff some
predecessor row joins to a task-step pair whose position differs from the
MAX position of the step's project.  Predecessor rows whose task or step is
missing are skipped, exactly like the Python continue / inner join. -/
def is_blocked (db : DB) (task_id : String) : Bool :=
  let predecessors := db.task_dependencies.filter
    (fun d => d.successor_id = task_id)
  if predecessors.isEmpty then false
  else
    predecessors.any (fun pr =>
      match db.findTask pr.predecessor_id with
      | none => false
      | some pred =>
        match db.findStep pred.step_id with
        | none => false
        | some ws =>
          match maxPosition db ws.project_id with
          | none => true
          | some m => ws.position ≠ m)

/-- Embeds add_dependency from vibe_relay/mcp/tools.py: reject self-loops,
missing endpoints, duplicate edges and cycle-creating edges; otherwise
insert the edge and emit one dependency_created event. -/
def add_dependency (db : DB) (gen : Nat → String) (now : String)
    (predecessor_id successor_id : String) : Except ToolError DB :=
  if predecessor_id = successor_id then
    Except.error ⟨ErrKind.invalid_input, "A task cannot depend on itself"⟩
  else
    match db.findTask predecessor_id with
    | none => Except.error ⟨ErrKind.not_found, "Predecessor task not found"⟩
    | some _ =>
      match db.findTask successor_id with
      | none => Except.error ⟨ErrKind.not_found, "Successor task not found"⟩
      | some _ =>
        match db.task_dependencies.find? (fun d =>
            d.predecessor_id = predecessor_id ∧
            d.successor_id = successor_id) with
        | some _ =>
          Except.error ⟨ErrKind.invalid_input, "This dependency already exists"⟩
        | none =>
          if has_cycle db predecessor_id successor_id then
            Except.error ⟨ErrKind.invalid_input,
              "Adding this dependency would create a cycle"⟩
          else
            let db1 := { db with task_dependencies := db.task_dependencies ++
              [⟨gen 0, predecessor_id, successor_id, now⟩] }
            Except.ok (emit_event db1 (gen 1) now ("dependency_created")
              [("dependency_id", JsonVal.str (gen 0)),
               ("predecessor_id", JsonVal.str predecessor_id),
               ("successor_id", JsonVal.str successor_id)])

/-- Embeds remove_dependency from vibe_relay/mcp/tools.py: delete the edge
row and emit one dependency_removed event. -/
def remove_dependency (db : DB) (gen : Nat → String) (now : String)
    (dependency_id : String) : Except ToolError DB :=
  match db.findDependency dependency_id with
  | none => Except.error ⟨ErrKind.not_found, "Dependency not found"⟩
  | some dep =>
    let db1 := { db with task_dependencies :=
      db.task_dependencies.filter (fun d => d.id ≠ dependency_id) }
    Except.ok (emit_event db1 (gen 0) now ("dependency_removed")
      [("dependency_id", JsonVal.str dependency_id),
       ("predecessor_id", JsonVal.str dep.predecessor_id),
       ("successor_id", JsonVal.str dep.successor_id)])

/-- Embeds set_task_output from vibe_relay/mcp/tools.py: store the output
text on the task and emit one task_updated event. -/
def set_task_output (db : DB) (gen : Nat → String) (now : String)
    (task_id output : String) : Except ToolError DB :=
  match db.findTask task_id with
  | none => Except.error ⟨ErrKind.not_found, "Task not found"⟩
  | some _ =>
    let db1 := db.updateTask task_id
      (fun t => { t with output := some output, updated_at := now })
    Except.ok (emit_event db1 (gen 0) now ("task_updated")
      [("task_id", JsonVal.str task_id)])

/-- Construction of a task_ready event row as emitted by approve_plan and
cascade_unblock. -/
def taskReadyEvent (eid now tid pid : String) : Event :=
  ⟨eid, "task_ready",
   [("task_id", JsonVal.str tid), ("project_id", JsonVal.str pid)],
   now, false, false⟩

/-- Embeds approve_plan from vibe_relay/mcp/tools.py: reject a missing task,
a non-milestone, an already-approved milestone and a milestone with no
non-cancelled child; otherwise set plan_approved, emit one plan_approved
event and one task_ready event per non-blocked child of the enumerated
(non-cancelled) children.  The Python for-loop over children that emits the
task_ready events in order is rendered as filter-then-map, which appends
the same event rows in the same order. -/
def approve_plan (db : DB) (gen : Nat → String) (now : String)
    (task_id : String) : Except ToolError DB :=
  match db.findTask task_id with
  | none => Except.error ⟨ErrKind.not_found, "Task not found"⟩
  | some task =>
    match db.findStep task.step_id with
    | none => Except.error ⟨ErrKind.not_found, "Task not found"⟩
    | some _ =>
      if task.type ≠ "milestone" then
        Except.error ⟨ErrKind.invalid_input, "Only milestones can be approved"⟩
      else if task.plan_approved then
        Except.error ⟨ErrKind.invalid_input, "This milestone is already approved"⟩
      else
        let children := db.tasks.filter (fun t =>
          t.parent_task_id = some task_id ∧ t.cancelled = false)
        if children.isEmpty then
          Except.error ⟨ErrKind.invalid_input,
            "Milestone must have at least one child task before approval"⟩
        else
          let db1 := db.updateTask task_id
            (fun t => { t with plan_approved := true, updated_at := now })
          let db2 := emit_event db1 (gen 0) now ("plan_approved")
            [("task_id", JsonVal.str task_id),
             ("project_id", JsonVal.str task.project_id)]
          let ready := children.filter (fun c => !(is_blocked db1 c.id))
          Except.ok { db2 with events := db2.events ++
            (ready.enum.map (fun kc =>
              taskReadyEvent (gen (1 + kc.1)) now kc.2.id task.project_id)) }

/-- Oracle for the deliberately-external git helpers used by
create_project: path resolution, working-tree detection and default-branch
detection (runner/git_utils.py is an external collaborator per the spec). -/
structure GitEnv where
  resolve : String → String
  is_git_repo : String → Bool
  detect_default_branch : String → String

/-- Embeds create_project from vibe_relay/mcp/tools.py: optionally validate
and resolve the repo path, detect the default branch when absent, insert
the project row and emit one project_created event. -/
def create_project (env : GitEnv) (db : DB) (gen : Nat → String)
    (now : String) (title description : String)
    (repo_path base_branch : Option String) : Except ToolError DB :=
  let check : Except ToolError (Option String × Option String) :=
    if optTruthy repo_path then
      let p := env.resolve (repo_path.getD (""))
      if !(env.is_git_repo p) then
        Except.error ⟨ErrKind.invalid_input, "Not a git repository"⟩
      else
        Except.ok (some p,
          if optTruthy base_branch then base_branch
          else some (env.detect_default_branch p))
    else Except.ok (none, base_branch)
  match check with
  | Except.error e => Except.error e
  | Except.ok (resolved_repo, resolved_branch) =>
    let db1 := { db with projects := db.projects ++
      [⟨gen 0, title, description, resolved_repo, resolved_branch,
        "active", now, now⟩] }
    Except.ok (emit_event db1 (gen 1) now ("project_created")
      [("project_id", JsonVal.str (gen 0))])

/-- One entry of the ordered step-definition list passed to
create_workflow_steps; a missing name models a dict without that key. -/
structure StepSpec where
  name : Option String
  system_prompt : Option String
  model : Option String
  color : Option String
  deriving Repr, DecidableEq

/-- The UNIQUE(project_id, position) and UNIQUE(project_id, name)
constraints of the workflow_steps table in db/schema.py: an INSERT raises
sqlite3.IntegrityError when the new row collides with any row already in
the table on either pair. -/
def stepInsertConflict (existing : List WorkflowStep)
    (r : WorkflowStep) : Bool :=
  existing.any (fun s => s.project_id = r.project_id ∧
    (s.position = r.position ∨ s.name = r.name))

/-- Loop body of create_workflow_steps: insert one row per spec with its
list position.  A falsy name aborts the whole call before commit, and an
insert that violates a workflow_steps UNIQUE constraint raises
IntegrityError (modeled as the crash error), also before commit, so the
all-or-nothing result is the full row list or an error; existing carries
the table contents seen by each successive INSERT, the pre-existing rows
plus the rows of the batch already inserted. -/
def buildStepRows (project_id now : String) (gen : Nat → String) :
    List WorkflowStep → Nat → List StepSpec →
    Except ToolError (List WorkflowStep)
  | _, _, [] => Except.ok []
  | existing, position, spec :: rest =>
    if !(optTruthy spec.name) then
      Except.error ⟨ErrKind.invalid_input, "Step missing name"⟩
    else
      let row : WorkflowStep := ⟨gen position, project_id,
        spec.name.getD (""), position, spec.system_prompt, spec.model,
        spec.color, now⟩
      if stepInsertConflict existing row then
        Except.error ⟨ErrKind.crash,
          "UNIQUE constraint failed: workflow_steps"⟩
      else
        match buildStepRows project_id now gen (existing ++ [row])
            (position + 1) rest with
        | Except.error e => Except.error e
        | Except.ok rows => Except.ok (row :: rows)

/-- Embeds create_workflow_steps from vibe_relay/mcp/tools.py: bulk create
the ordered steps of a project.  Note the source emits no event row for
this operation; the commit contains only the workflow_steps inserts. -/
def create_workflow_steps (db : DB) (gen : Nat → String) (now : String)
    (project_id : String) (steps : List StepSpec) : Except ToolError DB :=
  match db.findProject project_id with
  | none => Except.error ⟨ErrKind.not_found, "Project not found"⟩
  | some _ =>
    if steps.isEmpty then
      Except.error ⟨ErrKind.invalid_input, "At least one step is required"⟩
    else
      match buildStepRows project_id now gen db.workflow_steps 0 steps with
      | Except.error e => Except.error e
      | Except.ok rows =>
        Except.ok { db with workflow_steps := db.workflow_steps ++ rows }

/-- Embeds create_task from vibe_relay/mcp/tools.py: validate the step, its
project, the optional parent and the task type, insert the task row and
emit one task_created event. -/
def create_task (db : DB) (gen : Nat → String) (now : String)
    (title description step_id project_id : String)
    (parent_task_id : Option String) (task_type : String) :
    Except ToolError DB :=
  match db.findStep step_id with
  | none => Except.error ⟨ErrKind.not_found, "Step not found"⟩
  | some step =>
    if step.project_id ≠ project_id then
      Except.error ⟨ErrKind.invalid_input, "Step does not belong to project"⟩
    else
      match db.findProject project_id with
      | none => Except.error ⟨ErrKind.not_found, "Project not found"⟩
      | some _ =>
        let parentOk : Except ToolError Unit :=
          if optTruthy parent_task_id then
            match db.findTask (parent_task_id.getD ("")) with
            | none => Except.error ⟨ErrKind.not_found, "Parent task not found"⟩
            | some _ => Except.ok ()
          else Except.ok ()
        match parentOk with
        | Except.error e => Except.error e
        | Except.ok _ =>
          if task_type ≠ "task" ∧ task_type ≠ "research" ∧
              task_type ≠ "milestone" then
            Except.error ⟨ErrKind.invalid_input, "Invalid task type"⟩
          else
            let db1 := { db with tasks := db.tasks ++
              [⟨gen 0, project_id, parent_task_id, title, description,
                step_id, false, task_type, false, none, none, none, none,
                now, now⟩] }
            Except.ok (emit_event db1 (gen 1) now ("task_created")
              [("task_id", JsonVal.str (gen 0)),
               ("project_id", JsonVal.str project_id)])

/-- SQL SELECT id FROM workflow_steps WHERE project_id = ? AND
system_prompt IS NOT NULL ORDER BY position LIMIT 1. -/
def minAgentStep (db : DB) (pid : String) : Option WorkflowStep :=
  (db.workflow_steps.filter (fun s =>
    s.project_id = pid ∧ s.system_prompt.isSome)).foldl
    (fun acc s =>
      match acc with
      | none => some s
      | some b => if s.position < b.position then some s else acc) none

/-- One task spec of the create_subtasks batch; a none field models a dict
without that key. -/
structure TaskSpec where
  title : String
  description : Option String
  type : Option String
  step_id : Option String
  deriving Repr, DecidableEq

/-- One entry of the dependencies argument of create_subtasks.  The
from_legacy and to_legacy fields model the undocumented fallback dict keys
named from and to that the source consults when from_index or to_index is
absent. -/
structure DepSpec where
  from_index : Option Int
  to_index : Option Int
  from_legacy : Option Int
  to_legacy : Option Int
  deriving Repr, DecidableEq

/-- Id of the n-th created child, used to wire intra-batch edges. -/
def idAt (created : List Task) (n : Nat) : String :=
  ((created[n]?).map (fun t => t.id)).getD ("")

/-- Child-creation loop of create_subtasks: one row per spec, each step
validated against the parent project; the i-th child consumes the i-th
uuid of the stream. -/
def buildChildRows (db : DB) (gen : Nat → String)
    (now project_id parent_task_id default_step : String) :
    Nat → List TaskSpec → Except ToolError (List Task)
  | _, [] => Except.ok []
  | i, t :: rest =>
    let step_id := t.step_id.getD default_step
    match db.findStep step_id with
    | none => Except.error ⟨ErrKind.not_found, "Step not found"⟩
    | some step =>
      if step.project_id ≠ project_id then
        Except.error ⟨ErrKind.invalid_input, "Step does not belong to project"⟩
      else
        match buildChildRows db gen now project_id parent_task_id
            default_step (i + 1) rest with
        | Except.error e => Except.error e
        | Except.ok rows =>
          Except.ok (⟨gen i, project_id, some parent_task_id, t.title,
            t.description.getD (""), step_id, false, t.type.getD ("task"),
            false, none, none, none, none, now, now⟩ :: rows)

/-- Intra-batch dependency loop of create_subtasks: each entry resolves its
indices from from_index (falling back to the legacy key from) and to_index
(falling back to the legacy key to); entries with a missing or out-of-range
index are skipped without error; an in-range entry inserts one edge between
the indexed children and consumes one uuid.  Returns the inserted edges and
the next uuid counter. -/
def buildBatchDeps (created : List Task) (gen : Nat → String)
    (now : String) : Nat → List DepSpec → List TaskDependency × Nat
  | ctr, [] => ([], ctr)
  | ctr, dep :: rest =>
    let from_idx := dep.from_index.orElse (fun _ => dep.from_legacy)
    let to_idx := dep.to_index.orElse (fun _ => dep.to_legacy)
    match from_idx, to_idx with
    | some fi, some ti =>
      if 0 ≤ fi ∧ fi < (created.length : Int) ∧ 0 ≤ ti ∧
          ti < (created.length : Int) then
        let e : TaskDependency :=
          ⟨gen ctr, idAt created fi.toNat, idAt created ti.toNat, now⟩
        let r := buildBatchDeps created gen now (ctr + 1) rest
        (e :: r.1, r.2)
      else buildBatchDeps created gen now ctr rest
    | _, _ => buildBatchDeps created gen now ctr rest

/-- Embeds create_subtasks from vibe_relay/mcp/tools.py: bulk create
children under a parent, defaulting the step to the one after the parent
(falling back to the first agent step, then the parent step), wire the
intra-batch dependency edges and the cascade edges, then emit one
subtasks_created event followed by one task_created event per child. -/
def create_subtasks (db : DB) (gen : Nat → String) (now : String)
    (parent_task_id : String) (tasks : List TaskSpec)
    (default_step_id : Option String) (dependencies : Option (List DepSpec))
    (cascade_deps_from : Option String) : Except ToolError DB :=
  match db.findTask parent_task_id with
  | none => Except.error ⟨ErrKind.not_found, "Parent task not found"⟩
  | some parent =>
    let project_id := parent.project_id
    let defStepResult : Except ToolError String :=
      match default_step_id with
      | some s => Except.ok s
      | none =>
        match db.findStep parent.step_id with
        | none => Except.error ⟨ErrKind.crash, "parent step row is missing"⟩
        | some parent_step =>
          match stepAtPosition db project_id (parent_step.position + 1) with
          | some next => Except.ok next.id
          | none =>
            match minAgentStep db project_id with
            | some first_agent => Except.ok first_agent.id
            | none => Except.ok parent.step_id
    match defStepResult with
    | Except.error e => Except.error e
    | Except.ok defStep =>
      match buildChildRows db gen now project_id parent_task_id defStep
          0 tasks with
      | Except.error e => Except.error e
      | Except.ok created =>
        let db1 := { db with tasks := db.tasks ++ created }
        let batch :=
          match dependencies with
          | none => (([] : List TaskDependency), created.length)
          | some deps => buildBatchDeps created gen now created.length deps
        let db2 := { db1 with task_dependencies :=
          db1.task_dependencies ++ batch.1 }
        let cascadePairs :=
          if optTruthy cascade_deps_from then
            (successorsOf db2.task_dependencies
              (cascade_deps_from.getD (""))).flatMap
              (fun succ => created.map (fun t => (t.id, succ)))
          else []
        let cascadeEdges := cascadePairs.enum.map (fun ke =>
          (⟨gen (batch.2 + ke.1), ke.2.1, ke.2.2, now⟩ : TaskDependency))
        let db3 := { db2 with task_dependencies :=
          db2.task_dependencies ++ cascadeEdges }
        let ctr := batch.2 + cascadePairs.length
        let db4 := emit_event db3 (gen ctr) now ("subtasks_created")
          [("parent_task_id", JsonVal.str parent_task_id),
           ("task_ids", JsonVal.ids (created.map (fun t => t.id)))]
        Except.ok { db4 with events := db4.events ++
          (created.enum.map (fun kc =>
            (⟨gen (ctr + 1 + kc.1), "task_created",
              [("task_id", JsonVal.str kc.2.id),
               ("project_id", JsonVal.str kc.2.project_id)],
              now, false, false⟩ : Event))) }

/-- Successor tasks for which the loop body of _cascade_unblock (tools.py)
emits a task_ready event: not blocked, existing, not cancelled, and the
parent milestone (if any) approved.  Emitting events does not change any
table that is_blocked or the lookups read, so evaluating all gates against
the entry database is exactly the Python loop. -/
def cascade_unblock_targets (db : DB) (completed_task_id : String) :
    List Task :=
  (successorsOf db.task_dependencies completed_task_id).filterMap
    (fun succ_id =>
      if is_blocked db succ_id then none
      else
        match db.findTask succ_id with
        | none => none
        | some succ =>
          if succ.cancelled then none
          else
            let parent_approved :=
              if optTruthy succ.parent_task_id then
                match db.findTask (succ.parent_task_id.getD ("")) with
                | none => true
                | some parent =>
                  !(parent.type = "milestone" ∧ parent.plan_approved = false)
              else true
            if parent_approved then some succ else none)

/-- Embeds _cascade_unblock from vibe_relay/mcp/tools.py: emit one
task_ready event per fully unblocked successor of the completed task, in
successor-row order; base indexes the uuid stream. -/
def cascade_unblock (db : DB) (gen : Nat → String) (base : Nat)
    (now : String) (completed_task_id : String) : DB :=
  { db with events := db.events ++
    ((cascade_unblock_targets db completed_task_id).enum.map (fun kc =>
      taskReadyEvent (gen (base + kc.1)) now kc.2.id kc.2.project_id)) }

/-- Joined non-cancelled children of a milestone together with their step
rows, as read by the children query of _check_sibling_completion; a child
whose step row is dangling is dropped by the inner join. -/
def joinedChildren (db : DB) (parent_task_id : String) :
    List (Task × WorkflowStep) :=
  db.tasks.filterMap (fun t =>
    if t.parent_task_id = some parent_task_id ∧ t.cancelled = false then
      (db.findStep t.step_id).map (fun s => (t, s))
    else none)

/-- Fuel bound for the _check_sibling_completion recursion: every recursive
call is preceded by moving one task forward one position, and a task can
advance at most as many times as there are steps, so the recursion makes
at most tasks * (steps + 1) + 1 calls and this fuel computes the Python
recursion exactly. -/
def siblingFuel (db : DB) : Nat :=
  db.tasks.length * (db.workflow_steps.length + 1) + 1

/-- Embeds _check_sibling_completion from vibe_relay/mcp/tools.py: when the
given parent is a non-cancelled milestone whose joined non-cancelled
children all sit at the terminal position, move the parent forward one
step and emit task_moved; if that lands the parent at the terminal
position, emit milestone_completed and recurse on the grandparent.  The
error case models the uncaught Python exception when the terminal-step
query of a dangling project returns no row; ctr indexes the uuid stream
and is threaded through the recursion. -/
def check_sibling_completion (gen : Nat → String) (now : String) :
    Nat → DB → Nat → String → Except String (DB × Nat)
  | 0, db, ctr, _ => Except.ok (db, ctr)
  | fuel + 1, db, ctr, parent_task_id =>
    match db.findTask parent_task_id with
    | none => Except.ok (db, ctr)
    | some parent =>
      match db.findStep parent.step_id with
      | none => Except.ok (db, ctr)
      | some pstep =>
        if parent.type ≠ "milestone" ∨ parent.cancelled then
          Except.ok (db, ctr)
        else
          let children := joinedChildren db parent_task_id
          if children.isEmpty then Except.ok (db, ctr)
          else
            match terminalStep db parent.project_id with
            | none => Except.error ("terminal step row is missing")
            | some terminal =>
              if !(children.all (fun c => c.2.position = terminal.position))
                  then Except.ok (db, ctr)
              else
                match stepAtPosition db parent.project_id
                    (pstep.position + 1) with
                | none => Except.ok (db, ctr)
                | some next_step =>
                  let db1 := db.updateTask parent_task_id (fun t =>
                    { t with step_id := next_step.id, updated_at := now })
                  let db2 := emit_event db1 (gen ctr) now ("task_moved")
                    [("task_id", JsonVal.str parent_task_id),
                     ("old_step_id", JsonVal.str parent.step_id),
                     ("new_step_id", JsonVal.str next_step.id),
                     ("project_id", JsonVal.str parent.project_id),
                     ("from_step_name", JsonVal.str pstep.name),
                     ("to_step_name", JsonVal.str next_step.name),
                     ("from_position", JsonVal.num pstep.position),
                     ("to_position", JsonVal.num next_step.position),
                     ("direction", JsonVal.str ("forward"))]
                  if next_step.position = terminal.position then
                    let db3 := emit_event db2 (gen (ctr + 1)) now
                      ("milestone_completed")
                      [("task_id", JsonVal.str parent_task_id),
                       ("project_id", JsonVal.str parent.project_id)]
                    if optTruthy parent.parent_task_id then
                      check_sibling_completion gen now fuel db3 (ctr + 2)
                        (parent.parent_task_id.getD (""))
                    else Except.ok (db3, ctr + 2)
                  else Except.ok (db2, ctr + 1)

/-- Embeds complete_task from vibe_relay/mcp/tools.py: reject a missing or
cancelled task and a task already at the terminal step, otherwise move the
task to the terminal step, emit one task_moved event, run the cascade
unblock, and run the sibling-completion check on the parent if any; all of
it commits as one transaction. -/
def complete_task (db : DB) (gen : Nat → String) (now : String)
    (task_id : String) : Except ToolError DB :=
  match db.findTask task_id with
  | none => Except.error ⟨ErrKind.not_found, "Task not found"⟩
  | some task =>
    match db.findStep task.step_id with
    | none => Except.error ⟨ErrKind.not_found, "Task not found"⟩
    | some current_step =>
      if task.cancelled then
        Except.error ⟨ErrKind.invalid_transition,
          "Cannot complete a cancelled task"⟩
      else
        match terminalStep db task.project_id with
        | none => Except.error ⟨ErrKind.crash, "terminal step row is missing"⟩
        | some terminal =>
          if task.step_id = terminal.id then
            Except.error ⟨ErrKind.invalid_transition,
              "Task is already at the terminal step"⟩
          else
            let db1 := db.updateTask task_id (fun t =>
              { t with step_id := terminal.id, updated_at := now })
            let db2 := emit_event db1 (gen 0) now ("task_moved")
              [("task_id", JsonVal.str task_id),
               ("old_step_id", JsonVal.str task.step_id),
               ("new_step_id", JsonVal.str terminal.id),
               ("project_id", JsonVal.str task.project_id),
               ("from_step_name", JsonVal.str current_step.name),
               ("to_step_name", JsonVal.str terminal.name),
               ("from_position", JsonVal.num current_step.position),
               ("to_position", JsonVal.num terminal.position),
               ("direction", JsonVal.str ("forward"))]
            let targets := cascade_unblock_targets db2 task_id
            let db3 := cascade_unblock db2 gen 1 now task_id
            let afterSibling :=
              if optTruthy task.parent_task_id then
                check_sibling_completion gen now (siblingFuel db3) db3
                  (1 + targets.length) (task.parent_task_id.getD (""))
              else Except.ok (db3, 1 + targets.length)
            match afterSibling with
            | Except.error m => Except.error ⟨ErrKind.crash, m⟩
            | Except.ok (db4, _) => Except.ok db4

/-- Embeds has_active_run from runner/triggers.py: the task has an agent
run row with completed_at null. -/
def has_active_run (db : DB) (task_id : String) : Bool :=
  db.agent_runs.any (fun r => r.task_id = task_id ∧ r.completed_at = none)

/-- Embeds count_active_runs from runner/triggers.py. -/
def count_active_runs (db : DB) : Nat :=
  (db.agent_runs.filter (fun r => r.completed_at = none)).length

/-- Embeds _step_has_agent from runner/triggers.py. -/
def step_has_agent (db : DB) (step_id : String) : Bool :=
  match db.findStep step_id with
  | none => false
  | some s => s.system_prompt.isSome

/-- Embeds _is_terminal_step from runner/triggers.py: last position of its
project and no system_prompt. -/
def is_terminal_step (db : DB) (step_id : String) : Bool :=
  match db.findStep step_id with
  | none => false
  | some s =>
    if s.system_prompt.isSome then false
    else
      match maxPosition db s.project_id with
      | none => false
      | some m => s.position = m

/-- Embeds _is_parent_approved from runner/triggers.py: vacuously true
without a parent row reference or with a non-milestone parent; otherwise
the parent plan_approved flag.  The Python code tests parent_task_id with
an is-None check, not truthiness. -/
def is_parent_approved (db : DB) (task_id : String) : Bool :=
  match db.findTask task_id with
  | none => true
  | some t =>
    match t.parent_task_id with
    | none => true
    | some pid =>
      match db.findTask pid with
      | none => true
      | some parent =>
        if parent.type ≠ "milestone" then true else parent.plan_approved

/-- Embeds should_dispatch from runner/triggers.py for a live connection:
task_moved events whose (truthy) new step has an agent, and task_created
events whose (truthy) task sits at an agent step. -/
def should_dispatch (db : DB) (ev : Event) : Bool :=
  if ev.type = "task_moved" then
    match ev.payload.getStr ("new_step_id") with
    | some sid => if sid = "" then false else step_has_agent db sid
    | none => false
  else if ev.type = "task_created" then
    match ev.payload.getStr ("task_id") with
    | some tid =>
      if tid = "" then false
      else
        match db.findTask tid with
        | some row => step_has_agent db row.step_id
        | none => false
    | none => false
  else false

/-- Embeds should_cleanup from runner/triggers.py for a live connection:
task_cancelled always, task_moved when the (truthy) new step is terminal. -/
def should_cleanup (db : DB) (ev : Event) : Bool :=
  if ev.type = "task_cancelled" then true
  else if ev.type = "task_moved" then
    match ev.payload.getStr ("new_step_id") with
    | some sid => if sid = "" then false else is_terminal_step db sid
    | none => false
  else false

/-- Embeds _can_dispatch_task from runner/triggers.py: no active run,
parent milestone approved, no unmet dependency. -/
def can_dispatch_task (db : DB) (task_id : String) : Bool :=
  if has_active_run db task_id then false
  else if !(is_parent_approved db task_id) then false
  else if is_blocked db task_id then false
  else true

/-- Per-event outcome of one pass of the process_triggers loop body in
runner/triggers.py: whether the event is marked trigger-consumed, whether
a Runner is spawned for a task, whether a worktree cleanup is scheduled,
and whether the task_ready handler runs. -/
inductive TriggerDecision where
  | consumeOnly
  | consumeAndSpawn (task_id : String)
  | leaveUnconsumed
  | consumeAndCleanup (task_id : String)
  | consumeAfterTaskReady
  deriving Repr, DecidableEq

/-- Whether the cleanup branches of process_triggers actually schedule a
worktree removal: the task row exists and its worktree_path is truthy. -/
def cleanupScheduled (db : DB) (task_id : String) : Bool :=
  match db.findTask task_id with
  | none => false
  | some t => optTruthy t.worktree_path

/-- Embeds the decision made by the body of process_triggers
(runner/triggers.py) for one unconsumed event against the connection state
at that point of the iteration: dispatch-relevant events consult the gates
and the global capacity, cleanup-relevant events schedule worktree removal
and consume, task_ready events run the handler then consume, all other
events are consumed. -/
def processTriggerEvent (db : DB) (max_agents : Nat) (ev : Event) :
    TriggerDecision :=
  if ev.type = "task_moved" ∨ ev.type = "task_created" then
    match ev.payload.getStr ("task_id") with
    | none => TriggerDecision.consumeOnly
    | some tid =>
      if tid = "" then TriggerDecision.consumeOnly
      else if should_dispatch db ev then
        if !(can_dispatch_task db tid) then TriggerDecision.consumeOnly
        else if max_agents ≤ count_active_runs db then
          TriggerDecision.leaveUnconsumed
        else TriggerDecision.consumeAndSpawn tid
      else if should_cleanup db ev then
        if cleanupScheduled db tid then TriggerDecision.consumeAndCleanup tid
        else TriggerDecision.consumeOnly
      else TriggerDecision.consumeOnly
  else if ev.type = "task_cancelled" then
    match ev.payload.getStr ("task_id") with
    | some tid =>
      if tid = "" then TriggerDecision.consumeOnly
      else if cleanupScheduled db tid then
        TriggerDecision.consumeAndCleanup tid
      else TriggerDecision.consumeOnly
    | none => TriggerDecision.consumeOnly
  else if ev.type = "task_ready" then TriggerDecision.consumeAfterTaskReady
  else TriggerDecision.consumeOnly

/-- SQL SELECT ... FROM workflow_steps WHERE project_id = ? AND
position > ? AND system_prompt IS NOT NULL ORDER BY position LIMIT 1. -/
def nextAgentStep (db : DB) (pid : String) (pos : Nat) :
    Option WorkflowStep :=
  (db.workflow_steps.filter (fun s =>
    s.project_id = pid ∧ pos < s.position ∧ s.system_prompt.isSome)).foldl
    (fun acc s =>
      match acc with
      | none => some s
      | some b => if s.position < b.position then some s else acc) none

/-- Embeds _handle_task_ready from runner/triggers.py: locate the task of a
task_ready event, move it forward to the next agent step if one exists,
and emit a task_moved event whose payload carries only task_id,
old_step_id, new_step_id and project_id. -/
def handle_task_ready (db : DB) (gen : Nat → String) (now : String)
    (ev : Event) : DB :=
  match ev.payload.getStr ("task_id") with
  | none => db
  | some tid =>
    if tid = "" then db
    else
      match db.findTask tid with
      | none => db
      | some task =>
        match db.findStep task.step_id with
        | none => db
        | some cur =>
          if task.cancelled then db
          else
            match nextAgentStep db task.project_id cur.position with
            | none => db
            | some nas =>
              let db1 := db.updateTask tid (fun t =>
                { t with step_id := nas.id, updated_at := now })
              emit_event db1 (gen 0) now ("task_moved")
                [("task_id", JsonVal.str tid),
                 ("old_step_id", JsonVal.str task.step_id),
                 ("new_step_id", JsonVal.str nas.id),
                 ("project_id", JsonVal.str task.project_id)]

/-- One decoded NDJSON line of the agent subprocess stdout; a none
session_id models an object without that key.  Undecodable and blank lines
are skipped by the source before reaching this logic and are not
modelled. -/
structure StdoutMsg where
  type : String
  subtype : String
  session_id : Option String
  deriving Repr, DecidableEq

/-- Embeds _build_command from runner/claude.py: the fixed CLI flags, a
resume directive exactly when the session id is truthy, then the prompt. -/
def build_command (model : String) (session_id : Option String)
    (mcp_config_path prompt : String) : List String :=
  ["claude", "--dangerously-skip-permissions", "--output-format",
   "stream-json", "--verbose", "--model", model, "--mcp-config",
   mcp_config_path, "--strict-mcp-config", "--setting-sources", "project"]
  ++ (if optTruthy session_id then ["--resume", session_id.getD ("")] else [])
  ++ ["-p", prompt]

/-- State of the stdout line scan of run_agent (runner/claude.py): the
captured session id so far and the arguments of every on_session_id
callback invocation, in order. -/
structure ScanState where
  captured_session_id : String
  callback_calls : List String
  deriving Repr, DecidableEq

/-- One line of the run_agent stdout scan: an init system message carrying
a session_id is captured (and the callback invoked) only while the
captured id is still falsy. -/
def scanStep (st : ScanState) (msg : StdoutMsg) : ScanState :=
  if msg.type = "system" ∧ msg.subtype = "init" ∧ msg.session_id.isSome ∧
      st.captured_session_id = "" then
    { captured_session_id := msg.session_id.getD (""),
      callback_calls := st.callback_calls ++ [msg.session_id.getD ("")] }
  else st

/-- Embeds the session-capture core of run_agent from runner/claude.py:
the scan starts from the given session id (or the empty string when none)
and folds over the decoded stdout lines; the subprocess plumbing itself is
external I/O. -/
def run_agent_capture (session_id : Option String)
    (msgs : List StdoutMsg) : ScanState :=
  msgs.foldl scanStep
    { captured_session_id := session_id.getD (""), callback_calls := [] }

/-! Concrete fixtures used by witnesses and counterexamples. -/

/-- Deterministic uuid stream for witnesses. -/
def wGen : Nat → String := fun n => "uuid-" ++ toString n

/-- Fixture step s0: agent step Plan at position 0 of project p1. -/
def exStep0 : WorkflowStep := ⟨"s0", "p1", "Plan", 0, some ("plan prompt"), none, none, "T0"⟩

/-- Fixture step s1: agent step Implement at position 1 of project p1. -/
def exStep1 : WorkflowStep := ⟨"s1", "p1", "Implement", 1, some ("impl prompt"), none, none, "T0"⟩

/-- Fixture step s2: agent step Review at position 2 of project p1. -/
def exStep2 : WorkflowStep := ⟨"s2", "p1", "Review", 2, some ("rev prompt"), none, none, "T0"⟩

/-- Fixture step s3: terminal step Done at position 3 of project p1. -/
def exStep3 : WorkflowStep := ⟨"s3", "p1", "Done", 3, none, none, none, "T0"⟩

/-- Fixture step u0: the lone step of project p2. -/
def exStepOther : WorkflowStep := ⟨"u0", "p2", "Backlog", 0, none, none, none, "T0"⟩

/-- Fixture: four steps of project p1 (Plan, Implement, Review are agent
steps; Done is the terminal step) plus a lone step of project p2. -/
def exSteps : List WorkflowStep :=
  [exStep0, exStep1, exStep2, exStep3, exStepOther]

/-- Fixture task tA of project p1, at the Implement step. -/
def exTaskA : Task :=
  ⟨"tA", "p1", none, "A", "", "s1", false, "task", false, none, none,
   none, none, "T0", "T0"⟩

/-- Fixture database: two projects, the steps above, one plain task. -/
def exDB : DB :=
  { projects :=
      [⟨"p1", "Proj", "", none, none, "active", "T0", "T0"⟩,
       ⟨"p2", "Other", "", none, none, "active", "T0", "T0"⟩]
    workflow_steps := exSteps
    tasks := [exTaskA]
    comments := []
    agent_runs := []
    task_dependencies := []
    events := [] }

/-- C1: for an existing non-cancelled task at position p and an existing
target step of the same project, validate_step_transition (and hence
move_task) accepts exactly the moves to position p + 1 or to a position
strictly below p; a cancelled task and a cross-project target are always
rejected; and every InvalidTransitionError surfaces through move_task as
the invalid_transition error kind. -/
theorem c1_step_transition_rules (db : DB) (gen : Nat → String)
    (now : String) (t : Task) (cs ts : WorkflowStep)
    (ht : db.findTask t.id = some t)
    (hcs : db.findStep t.step_id = some cs)
    (hts : db.findStep ts.id = some ts) :
    (t.cancelled = false → ts.project_id = t.project_id →
      ((∃ info, validate_step_transition db t.id ts.id = Except.ok info) ↔
        (ts.position = cs.position + 1 ∨ ts.position < cs.position)))
    ∧ ((∃ db2, move_task db gen now t.id ts.id = Except.ok db2) ↔
        (∃ info, validate_step_transition db t.id ts.id = Except.ok info))
    ∧ (t.cancelled = true →
        ∃ m, validate_step_transition db t.id ts.id =
          Except.error (VErr.invalid m))
    ∧ (t.cancelled = false → ts.project_id ≠ t.project_id →
        ∃ m, validate_step_transition db t.id ts.id =
          Except.error (VErr.invalid m))
    ∧ (∀ m, validate_step_transition db t.id ts.id =
          Except.error (VErr.invalid m) →
        move_task db gen now t.id ts.id =
          Except.error ⟨ErrKind.invalid_transition, m⟩) := by
  refine ⟨?_, ?_, ?_, ?_, ?_⟩
  · intro hc hp
    simp only [validate_step_transition, ht, hcs, hts, hc, hp]
    split_ifs <;>
      first
        | exact iff_of_false (by rintro ⟨info, h⟩; simp at h) (by omega)
        | exact iff_of_true ⟨_, rfl⟩ (by omega)
        | simp_all
  · cases hv : validate_step_transition db t.id ts.id with
    | ok info => simp [move_task, hv]
    | error e =>
      cases e with
      | invalid m => simp [move_task, hv]
      | crash m => simp [move_task, hv]
  · intro hc
    refine ⟨"Task is cancelled. Uncancel it before moving.", ?_⟩
    simp [validate_step_transition, ht, hc]
  · intro hc hp
    refine ⟨"Target step belongs to a different project", ?_⟩
    simp [validate_step_transition, ht, hcs, hts, hc, hp]
  · intro m hv
    simp [move_task, hv]

/-- Witness for C1 at concrete input: task tA sits at Implement
(position 1) and moving it to Review (position 2 = 1 + 1) is accepted. -/
theorem c1_step_transition_rules_witness :
    ∃ info, validate_step_transition exDB "tA" "s2" = Except.ok info := by
  have h := c1_step_transition_rules exDB wGen ("T1") exTaskA exStep1 exStep2
    (by decide) (by decide) (by decide)
  exact (h.1 (by decide) (by decide)).mpr (by decide)

/-- Auxiliary: a point UPDATE that preserves the primary key commutes with
the point lookup of the same key. -/
theorem find?_map_update (l : List Task) (tid : String) (f : Task → Task)
    (hf : ∀ t, (f t).id = t.id) :
    (l.map (fun t => if t.id = tid then f t else t)).find?
      (fun t => t.id = tid) = (l.find? (fun t => t.id = tid)).map f := by
  induction l with
  | nil => rfl
  | cons a l ih =>
    by_cases ha : a.id = tid
    · simp [List.find?, ha, hf a]
    · rw [List.map_cons, if_neg ha]
      simp [List.find?, ha, ih]

/-- Auxiliary: DB-level form of find?_map_update. -/
theorem findTask_updateTask (db : DB) (tid : String) (f : Task → Task)
    (hf : ∀ t, (f t).id = t.id) :
    (db.updateTask tid f).findTask tid = (db.findTask tid).map f := by
  simpa [DB.updateTask, DB.findTask] using find?_map_update db.tasks tid f hf

/-- Auxiliary: emitting an event row changes no task row. -/
theorem findTask_emit_event (db : DB) (eid now ty : String) (p : Payload)
    (tid : String) :
    (emit_event db eid now ty p).findTask tid = db.findTask tid := rfl

/-- C7: for a non-cancelled task, cancel_task then uncancel_task succeeds
and returns the task row to its exact original value in every column, with
only updated_at taking the timestamp of the second call. -/
theorem c7_cancel_uncancel_round_trip (db : DB) (gen1 gen2 : Nat → String)
    (now1 now2 : String) (t : Task)
    (ht : db.findTask t.id = some t)
    (hc : t.cancelled = false) :
    ∃ db1 db2,
      cancel_task db gen1 now1 t.id = Except.ok db1 ∧
      uncancel_task db1 gen2 now2 t.id = Except.ok db2 ∧
      db2.findTask t.id = some ({ t with updated_at := now2 }) := by
  have hmid :
      (emit_event (db.updateTask t.id (fun u =>
          { u with cancelled := true, updated_at := now1 })) (gen1 0) now1
        ("task_cancelled") [("task_id", JsonVal.str t.id)]).findTask t.id =
      some ({ t with cancelled := true, updated_at := now1 }) := by
    rw [findTask_emit_event,
      findTask_updateTask db t.id
        (fun u => { u with cancelled := true, updated_at := now1 })
        (fun u => rfl), ht]
    rfl
  refine ⟨emit_event (db.updateTask t.id (fun u =>
      { u with cancelled := true, updated_at := now1 })) (gen1 0) now1
      ("task_cancelled") [("task_id", JsonVal.str t.id)],
    emit_event ((emit_event (db.updateTask t.id (fun u =>
        { u with cancelled := true, updated_at := now1 })) (gen1 0) now1
        ("task_cancelled") [("task_id", JsonVal.str t.id)]).updateTask t.id
        (fun u => { u with cancelled := false, updated_at := now2 }))
      (gen2 0) now2 ("task_uncancelled")
      [("task_id", JsonVal.str t.id)], ?_, ?_, ?_⟩
  · simp [cancel_task, validate_cancel, ht, hc]
  · simp [uncancel_task, validate_uncancel, hmid]
  · rw [findTask_emit_event,
      findTask_updateTask _ t.id
        (fun u => { u with cancelled := false, updated_at := now2 })
        (fun u => rfl), hmid]
    cases t
    simp_all

/-- Witness for C7 at concrete input: cancelling then uncancelling task tA
restores its row up to updated_at. -/
theorem c7_cancel_uncancel_round_trip_witness :
    ∃ db1 db2,
      cancel_task exDB wGen ("T1") ("tA") = Except.ok db1 ∧
      uncancel_task db1 wGen ("T2") ("tA") = Except.ok db2 ∧
      db2.findTask ("tA") = some ({ exTaskA with updated_at := "T2" }) :=
  c7_cancel_uncancel_round_trip exDB wGen wGen ("T1") ("T2") exTaskA
    (by decide) (by decide)

/-- Specification-side observation: the session_id value of the first
decoded init system line that carries a non-empty session_id (an init line
whose session_id is absent or empty never ends up captured, so the simpler
predicate is equivalent). -/
def firstInitSessionId (msgs : List StdoutMsg) : Option String :=
  (msgs.find? (fun m => m.type = "system" ∧ m.subtype = "init" ∧
    m.session_id.getD ("") ≠ "")).map (fun m => m.session_id.getD (""))

/-- Auxiliary: once a truthy session id is captured, the scan never changes
state again. -/
theorem scan_stuck (st : ScanState) (h : st.captured_session_id ≠ "")
    (msgs : List StdoutMsg) : msgs.foldl scanStep st = st := by
  induction msgs with
  | nil => rfl
  | cons m msgs ih =>
    have hs : scanStep st m = st := by
      dsimp only [scanStep]
      rw [if_neg]
      intro hg
      exact h hg.2.2.2
    rw [List.foldl_cons, hs, ih]

/-- Auxiliary: the captured session id of the scan does not depend on the
accumulated callback list. -/
theorem scan_captured_indep (msgs : List StdoutMsg) :
    ∀ c cs, (msgs.foldl scanStep ⟨c, cs⟩).captured_session_id =
      (msgs.foldl scanStep ⟨c, []⟩).captured_session_id := by
  induction msgs with
  | nil => intro c cs; rfl
  | cons m msgs ih =>
    intro c cs
    rw [List.foldl_cons, List.foldl_cons]
    dsimp only [scanStep]
    split_ifs with hg
    · exact (ih _ _).trans (ih _ _).symm
    · exact ih c cs

/-- Auxiliary: a scan that starts with an empty captured id ends with the
session id of the first init line carrying a non-empty one. -/
theorem scan_fresh (msgs : List StdoutMsg) :
    ∀ cs, ((msgs.foldl scanStep ⟨"", cs⟩).captured_session_id =
      (firstInitSessionId msgs).getD ("")) := by
  induction msgs with
  | nil => intro cs; rfl
  | cons m msgs ih =>
    intro cs
    rw [List.foldl_cons]
    dsimp only [scanStep]
    by_cases h1 : m.type = "system" ∧ m.subtype = "init" ∧
        m.session_id.isSome = true
    · by_cases h2 : m.session_id.getD ("") = ""
      · rw [if_pos ⟨h1.1, h1.2.1, h1.2.2, rfl⟩]
        have hskip : firstInitSessionId (m :: msgs) =
            firstInitSessionId msgs := by
          simp [firstInitSessionId, List.find?, h2]
        rw [hskip, h2]
        exact ih _
      · rw [if_pos ⟨h1.1, h1.2.1, h1.2.2, rfl⟩]
        rw [scan_stuck _ (by simpa using h2)]
        simp [firstInitSessionId, List.find?, h1.1, h1.2.1, h2]
    · rw [if_neg (by intro hg; exact h1 ⟨hg.1, hg.2.1, hg.2.2.1⟩)]
      have hskip : firstInitSessionId (m :: msgs) =
          firstInitSessionId msgs := by
        rcases Option.eq_none_or_eq_some m.session_id with hn | ⟨v, hv⟩
        · simp [firstInitSessionId, List.find?, hn]
        · by_cases ht : m.type = "system"
          · by_cases hst : m.subtype = "init"
            · exact absurd ⟨ht, hst, by simp [hv]⟩ h1
            · simp [firstInitSessionId, List.find?, hst]
          · simp [firstInitSessionId, List.find?, ht]
      rw [hskip]
      exact ih cs

/-- C9 (amended): run_agent treats the session id by Python truthiness, not
by a null test.  With a non-empty session id the command carries the
resume directive, the callback never fires and the result keeps the given
id no matter what init lines arrive; with a null session id (and likewise
an empty one, which the source treats identically) the command carries no
resume directive and the captured id is that of the first init line with a
non-empty session_id, never overwritten by later init lines. -/
theorem c9_run_agent_session_rules (model cfg prompt sid : String)
    (msgs : List StdoutMsg) :
    (sid ≠ "" →
      build_command model (some sid) cfg prompt =
        ["claude", "--dangerously-skip-permissions", "--output-format",
         "stream-json", "--verbose", "--model", model, "--mcp-config", cfg,
         "--strict-mcp-config", "--setting-sources", "project",
         "--resume", sid, "-p", prompt] ∧
      (run_agent_capture (some sid) msgs).callback_calls = [] ∧
      (run_agent_capture (some sid) msgs).captured_session_id = sid)
    ∧ (build_command model none cfg prompt =
        ["claude", "--dangerously-skip-permissions", "--output-format",
         "stream-json", "--verbose", "--model", model, "--mcp-config", cfg,
         "--strict-mcp-config", "--setting-sources", "project",
         "-p", prompt])
    ∧ (run_agent_capture none msgs).captured_session_id =
        (firstInitSessionId msgs).getD ("")
    ∧ run_agent_capture (some ("")) msgs = run_agent_capture none msgs := by
  refine ⟨?_, by simp [build_command, optTruthy], ?_, rfl⟩
  · intro hsid
    have hstuck := scan_stuck ⟨sid, []⟩ hsid msgs
    refine ⟨by simp [build_command, optTruthy, hsid], ?_, ?_⟩
    · show (msgs.foldl scanStep ⟨sid, []⟩).callback_calls = []
      rw [hstuck]
    · show (msgs.foldl scanStep ⟨sid, []⟩).captured_session_id = sid
      rw [hstuck]
  · exact scan_fresh msgs []

/-- Witness for C9 at concrete input: a truthy resume id survives an init
line with a different id, and a fresh run captures the first non-empty
init id. -/
theorem c9_run_agent_session_rules_witness :
    (("old" : String) ≠ "") ∧
    (run_agent_capture (some ("old"))
      [⟨"system", "init", some ("new")⟩]).captured_session_id = ("old") ∧
    (run_agent_capture none
      [⟨"system", "init", some ("new")⟩]).captured_session_id = ("new") := by
  have h := c9_run_agent_session_rules ("m") ("cfg") ("p") ("old")
    [⟨"system", "init", some ("new")⟩]
  exact ⟨by decide, (h.1 (by decide)).2.2, by
    rw [h.2.2.1]
    decide⟩

/-- Counterexample for C9 as stated: the empty string is a non-null
session id, yet the command carries no resume directive, the callback does
fire, and the result id is taken from the init line instead of the
pre-existing (empty) id. -/
theorem c9_counterexample :
    (some ("") : Option String) ≠ none ∧
    ¬ (("--resume") ∈ build_command ("m") (some ("")) ("cfg") ("p")) ∧
    (run_agent_capture (some (""))
      [⟨"system", "init", some ("s1")⟩]).callback_calls = [("s1")] ∧
    (run_agent_capture (some (""))
      [⟨"system", "init", some ("s1")⟩]).captured_session_id = ("s1") := by
  decide

/-- C3: for an unconsumed dispatch-relevant event (task_moved or
task_created landing on an agent step), the trigger loop body consumes the
event without spawning when the task has an active run, an unapproved
parent milestone or an unmet dependency; leaves the event unconsumed when
only the global capacity gate fails; and consumes and spawns a Runner when
every gate passes.  The last conjunct identifies the non-capacity gates
with _can_dispatch_task. -/
theorem c3_trigger_dispatch_gating (db : DB) (max_agents : Nat) (ev : Event)
    (tid : String)
    (hty : ev.type = "task_moved" ∨ ev.type = "task_created")
    (htid : ev.payload.getStr ("task_id") = some tid)
    (hne : tid ≠ "")
    (hd : should_dispatch db ev = true) :
    (can_dispatch_task db tid = false →
      processTriggerEvent db max_agents ev = TriggerDecision.consumeOnly)
    ∧ (can_dispatch_task db tid = true →
        max_agents ≤ count_active_runs db →
        processTriggerEvent db max_agents ev =
          TriggerDecision.leaveUnconsumed)
    ∧ (can_dispatch_task db tid = true →
        count_active_runs db < max_agents →
        processTriggerEvent db max_agents ev =
          TriggerDecision.consumeAndSpawn tid)
    ∧ (can_dispatch_task db tid = false ↔
        (has_active_run db tid = true ∨ is_parent_approved db tid = false ∨
         is_blocked db tid = true)) := by
  have hbranch : ∀ d : TriggerDecision,
      (if should_dispatch db ev = true then
        (if !(can_dispatch_task db tid) then TriggerDecision.consumeOnly
         else if max_agents ≤ count_active_runs db then
           TriggerDecision.leaveUnconsumed
         else TriggerDecision.consumeAndSpawn tid)
       else if should_cleanup db ev = true then
         (if cleanupScheduled db tid then TriggerDecision.consumeAndCleanup tid
          else TriggerDecision.consumeOnly)
       else TriggerDecision.consumeOnly) = d →
      processTriggerEvent db max_agents ev = d := by
    intro d hdd
    unfold processTriggerEvent
    rw [if_pos hty, htid]
    simpa [hne] using hdd
  refine ⟨?_, ?_, ?_, ?_⟩
  · intro hg
    exact hbranch _ (by simp [hd, hg])
  · intro hg hcap
    exact hbranch _ (by simp [hd, hg, hcap])
  · intro hg hcap
    exact hbranch _ (by simp [hd, hg, Nat.not_le.mpr hcap])
  · unfold can_dispatch_task
    constructor
    · intro h
      by_cases h1 : has_active_run db tid = true
      · exact Or.inl h1
      · by_cases h2 : is_parent_approved db tid = false
        · exact Or.inr (Or.inl h2)
        · refine Or.inr (Or.inr ?_)
          simp only [h1, if_false] at h
          simp only [Bool.not_eq_true] at h2
          simp [h2] at h
          exact h
    · intro h
      rcases h with h | h | h
      · simp [h]
      · simp [h]
      · by_cases h1 : has_active_run db tid = true
        · simp [h1]
        · by_cases h2 : is_parent_approved db tid = true
          · simp only [Bool.not_eq_true] at h1
            simp [h1, h2, h]
          · simp only [Bool.not_eq_true] at h1 h2
            simp [h1, h2]

/-- Fixture event: task_created for task tA of project p1. -/
def exEventCreatedA : Event :=
  ⟨"e1", "task_created",
   [("task_id", JsonVal.str ("tA")), ("project_id", JsonVal.str ("p1"))],
   "T0", false, false⟩

/-- Witness for C3 at concrete input: with no active runs, no parent and
no dependencies, the task_created event for tA (at the agent step
Implement) dispatches under capacity 3. -/
theorem c3_trigger_dispatch_gating_witness :
    processTriggerEvent exDB 3 exEventCreatedA =
      TriggerDecision.consumeAndSpawn ("tA") := by
  have h := c3_trigger_dispatch_gating exDB 3 exEventCreatedA ("tA")
    (by decide) (by decide) (by decide) (by decide)
  exact h.2.2.1 (by decide) (by decide)

/-- Whether a task_moved payload carries all nine documented fields. -/
def payloadHasAllNine (p : Payload) : Bool :=
  (p.get ("task_id")).isSome && (p.get ("old_step_id")).isSome &&
  (p.get ("new_step_id")).isSome && (p.get ("project_id")).isSome &&
  (p.get ("from_step_name")).isSome && (p.get ("to_step_name")).isSome &&
  (p.get ("from_position")).isSome && (p.get ("to_position")).isSome &&
  (p.get ("direction")).isSome

/-- Auxiliary: every task_moved event appended by the sibling-completion
recursion carries all nine payload fields (its milestone_completed events
are not task_moved, so the property is vacuous for them). -/
theorem check_sibling_events_nine (gen : Nat → String) (now : String) :
    ∀ (fuel : Nat) (db : DB) (ctr : Nat) (pid : String) (db2 : DB)
      (ctr2 : Nat),
      check_sibling_completion gen now fuel db ctr pid =
        Except.ok (db2, ctr2) →
      ∃ suffix, db2.events = db.events ++ suffix ∧
        ∀ e ∈ suffix, e.type = "task_moved" →
          payloadHasAllNine e.payload = true := by
  intro fuel
  induction fuel with
  | zero =>
    intro db ctr pid db2 ctr2 h
    simp only [check_sibling_completion, Except.ok.injEq, Prod.mk.injEq] at h
    obtain ⟨rfl, rfl⟩ := h
    exact ⟨[], by simp⟩
  | succ fuel ih =>
    intro db ctr pid db2 ctr2 h
    unfold check_sibling_completion at h
    cases hft : db.findTask pid with
    | none =>
      simp only [hft, Except.ok.injEq, Prod.mk.injEq] at h
      obtain ⟨rfl, rfl⟩ := h
      exact ⟨[], by simp⟩
    | some parent =>
      simp only [hft] at h
      cases hfs : db.findStep parent.step_id with
      | none =>
        simp only [hfs, Except.ok.injEq, Prod.mk.injEq] at h
        obtain ⟨rfl, rfl⟩ := h
        exact ⟨[], by simp⟩
      | some pstep =>
        simp only [hfs] at h
        by_cases hty : (parent.type ≠ "milestone" ∨ parent.cancelled = true)
        · rw [if_pos hty] at h
          simp only [Except.ok.injEq, Prod.mk.injEq] at h
          obtain ⟨rfl, rfl⟩ := h
          exact ⟨[], by simp⟩
        · rw [if_neg hty] at h
          by_cases hemp : (joinedChildren db pid).isEmpty = true
          · rw [if_pos hemp] at h
            simp only [Except.ok.injEq, Prod.mk.injEq] at h
            obtain ⟨rfl, rfl⟩ := h
            exact ⟨[], by simp⟩
          · rw [if_neg hemp] at h
            cases hterm : terminalStep db parent.project_id with
            | none => rw [hterm] at h; cases h
            | some terminal =>
              simp only [hterm] at h
              by_cases hall : ((!((joinedChildren db pid).all
                  (fun c => c.2.position = terminal.position))) = true)
              · rw [if_pos hall] at h
                simp only [Except.ok.injEq, Prod.mk.injEq] at h
                obtain ⟨rfl, rfl⟩ := h
                exact ⟨[], by simp⟩
              · rw [if_neg hall] at h
                cases hnext : stepAtPosition db parent.project_id
                    (pstep.position + 1) with
                | none =>
                  simp only [hnext, Except.ok.injEq, Prod.mk.injEq] at h
                  obtain ⟨rfl, rfl⟩ := h
                  exact ⟨[], by simp⟩
                | some next_step =>
                  simp only [hnext] at h
                  by_cases hpos : next_step.position = terminal.position
                  · rw [if_pos hpos] at h
                    by_cases hpp : optTruthy parent.parent_task_id = true
                    · rw [if_pos hpp] at h
                      obtain ⟨suffix, heq, hp⟩ := ih _ _ _ _ _ h
                      refine ⟨(⟨gen ctr, "task_moved",
                          [("task_id", JsonVal.str pid),
                           ("old_step_id", JsonVal.str parent.step_id),
                           ("new_step_id", JsonVal.str next_step.id),
                           ("project_id", JsonVal.str parent.project_id),
                           ("from_step_name", JsonVal.str pstep.name),
                           ("to_step_name", JsonVal.str next_step.name),
                           ("from_position", JsonVal.num pstep.position),
                           ("to_position", JsonVal.num next_step.position),
                           ("direction", JsonVal.str ("forward"))],
                          now, false, false⟩ : Event) ::
                        (⟨gen (ctr + 1), "milestone_completed",
                          [("task_id", JsonVal.str pid),
                           ("project_id", JsonVal.str parent.project_id)],
                          now, false, false⟩ : Event) :: suffix, ?_, ?_⟩
                      · rw [heq]
                        simp [emit_event, DB.updateTask]
                      · intro e he
                        simp only [List.mem_cons] at he
                        rcases he with rfl | rfl | hmem
                        · intro _; exact rfl
                        · intro hty2; simp at hty2
                        · exact hp e hmem
                    · rw [if_neg hpp] at h
                      simp only [Except.ok.injEq, Prod.mk.injEq] at h
                      obtain ⟨rfl, rfl⟩ := h
                      refine ⟨[(⟨gen ctr, "task_moved",
                          [("task_id", JsonVal.str pid),
                           ("old_step_id", JsonVal.str parent.step_id),
                           ("new_step_id", JsonVal.str next_step.id),
                           ("project_id", JsonVal.str parent.project_id),
                           ("from_step_name", JsonVal.str pstep.name),
                           ("to_step_name", JsonVal.str next_step.name),
                           ("from_position", JsonVal.num pstep.position),
                           ("to_position", JsonVal.num next_step.position),
                           ("direction", JsonVal.str ("forward"))],
                          now, false, false⟩ : Event),
                        (⟨gen (ctr + 1), "milestone_completed",
                          [("task_id", JsonVal.str pid),
                           ("project_id", JsonVal.str parent.project_id)],
                          now, false, false⟩ : Event)], ?_, ?_⟩
                      · simp [emit_event, DB.updateTask]
                      · intro e he
                        simp only [List.mem_cons] at he
                        rcases he with rfl | rfl | hmem
                        · intro _; exact rfl
                        · intro hty2; simp at hty2
                        · cases hmem
                  · rw [if_neg hpos] at h
                    simp only [Except.ok.injEq, Prod.mk.injEq] at h
                    obtain ⟨rfl, rfl⟩ := h
                    refine ⟨[(⟨gen ctr, "task_moved",
                        [("task_id", JsonVal.str pid),
                         ("old_step_id", JsonVal.str parent.step_id),
                         ("new_step_id", JsonVal.str next_step.id),
                         ("project_id", JsonVal.str parent.project_id),
                         ("from_step_name", JsonVal.str pstep.name),
                         ("to_step_name", JsonVal.str next_step.name),
                         ("from_position", JsonVal.num pstep.position),
                         ("to_position", JsonVal.num next_step.position),
                         ("direction", JsonVal.str ("forward"))],
                        now, false, false⟩ : Event)], ?_, ?_⟩
                    · simp [emit_event, DB.updateTask]
                    · intro e he
                      simp only [List.mem_cons] at he
                      rcases he with rfl | hmem
                      · intro _; exact rfl
                      · cases hmem

/-- Auxiliary: the event row appended by emit_event. -/
theorem emit_event_events (db : DB) (eid now ty : String) (p : Payload) :
    (emit_event db eid now ty p).events =
      db.events ++ [⟨eid, ty, p, now, false, false⟩] := rfl

/-- Auxiliary: a task update appends no event row. -/
theorem updateTask_events (db : DB) (tid : String) (f : Task → Task) :
    (db.updateTask tid f).events = db.events := rfl

/-- Auxiliary: the task_ready rows appended by cascade_unblock. -/
theorem cascade_unblock_events_eq (db : DB) (gen : Nat → String)
    (base : Nat) (now tid : String) :
    (cascade_unblock db gen base now tid).events = db.events ++
      ((cascade_unblock_targets db tid).enum.map (fun kc =>
        taskReadyEvent (gen (base + kc.1)) now kc.2.id kc.2.project_id)) :=
  rfl

/-- C8 (amended): every task_moved event emitted by move_task and by
complete_task (including the sibling auto-advance moves) carries all nine
payload fields, but the task_moved event emitted by the trigger processor
when handling task_ready carries only task_id, old_step_id, new_step_id
and project_id. -/
theorem c8_task_moved_payload_fields (db : DB) (gen : Nat → String)
    (now : String) :
    (∀ task_id target db2,
      move_task db gen now task_id target = Except.ok db2 →
      ∃ suffix, db2.events = db.events ++ suffix ∧
        ∀ e ∈ suffix, e.type = "task_moved" →
          payloadHasAllNine e.payload = true)
    ∧ (∀ task_id db2, complete_task db gen now task_id = Except.ok db2 →
      ∃ suffix, db2.events = db.events ++ suffix ∧
        ∀ e ∈ suffix, e.type = "task_moved" →
          payloadHasAllNine e.payload = true)
    ∧ (∀ ev, ∃ suffix,
        (handle_task_ready db gen now ev).events = db.events ++ suffix ∧
        ∀ e ∈ suffix, e.type = "task_moved" ∧
          (e.payload.get ("task_id")).isSome = true ∧
          (e.payload.get ("old_step_id")).isSome = true ∧
          (e.payload.get ("new_step_id")).isSome = true ∧
          (e.payload.get ("project_id")).isSome = true ∧
          payloadHasAllNine e.payload = false) := by
  refine ⟨?_, ?_, ?_⟩
  · intro task_id target db2 h
    unfold move_task at h
    cases hv : validate_step_transition db task_id target with
    | error e =>
      cases e with
      | invalid m => rw [hv] at h; cases h
      | crash m => rw [hv] at h; cases h
    | ok info =>
      rw [hv] at h
      simp only [Except.ok.injEq] at h
      obtain rfl := h
      have h2 := emit_event_events (db.updateTask task_id (fun t =>
        { t with step_id := target, updated_at := now })) (gen 0) now
        ("task_moved") (moveTaskPayload task_id target info)
      rw [updateTask_events] at h2
      refine ⟨_, h2, ?_⟩
      intro e he
      simp only [List.mem_singleton] at he
      subst he
      intro _
      rfl
  · intro task_id db2 h
    unfold complete_task at h
    cases hft : db.findTask task_id with
    | none => rw [hft] at h; cases h
    | some task =>
      simp only [hft] at h
      cases hfs : db.findStep task.step_id with
      | none => rw [hfs] at h; cases h
      | some current_step =>
        simp only [hfs] at h
        by_cases hc : task.cancelled = true
        · rw [if_pos hc] at h; cases h
        · rw [if_neg hc] at h
          cases hterm : terminalStep db task.project_id with
          | none => rw [hterm] at h; cases h
          | some terminal =>
            simp only [hterm] at h
            by_cases hat : task.step_id = terminal.id
            · rw [if_pos hat] at h; cases h
            · rw [if_neg hat] at h
              by_cases hpp : optTruthy task.parent_task_id = true
              · rw [if_pos hpp] at h
                split at h
                · cases h
                · rename_i db4 ctrx heq
                  simp only [Except.ok.injEq] at h
                  obtain rfl := h
                  obtain ⟨s2, h2, hp2⟩ :=
                    check_sibling_events_nine gen now _ _ _ _ _ _ heq
                  rw [cascade_unblock_events_eq, emit_event_events,
                    updateTask_events, List.append_assoc, List.append_assoc]
                    at h2
                  refine ⟨_, h2, ?_⟩
                  intro e he
                  simp only [List.mem_append, List.mem_singleton,
                    List.mem_map] at he
                  rcases he with rfl | ⟨⟨k, x⟩, _, rfl⟩ | hmem
                  · intro _; rfl
                  · intro hty2; simp [taskReadyEvent] at hty2
                  · exact hp2 e hmem
              · rw [if_neg hpp] at h
                simp only [Except.ok.injEq] at h
                obtain rfl := h
                have h2 := cascade_unblock_events_eq (emit_event
                  (db.updateTask task_id (fun t =>
                    { t with step_id := terminal.id, updated_at := now }))
                  (gen 0) now ("task_moved")
                  [("task_id", JsonVal.str task_id),
                   ("old_step_id", JsonVal.str task.step_id),
                   ("new_step_id", JsonVal.str terminal.id),
                   ("project_id", JsonVal.str task.project_id),
                   ("from_step_name", JsonVal.str current_step.name),
                   ("to_step_name", JsonVal.str terminal.name),
                   ("from_position", JsonVal.num current_step.position),
                   ("to_position", JsonVal.num terminal.position),
                   ("direction", JsonVal.str ("forward"))]) gen 1 now task_id
                rw [emit_event_events, updateTask_events,
                  List.append_assoc] at h2
                refine ⟨_, h2, ?_⟩
                intro e he
                simp only [List.mem_append, List.mem_singleton,
                  List.mem_map] at he
                rcases he with rfl | ⟨⟨k, x⟩, _, rfl⟩
                · intro _; rfl
                · intro hty2; simp [taskReadyEvent] at hty2
  · intro ev
    unfold handle_task_ready
    cases hgs : ev.payload.getStr ("task_id") with
    | none => exact ⟨[], by simp⟩
    | some tid =>
      dsimp only
      by_cases hemp : tid = ""
      · rw [if_pos hemp]
        exact ⟨[], by simp⟩
      · rw [if_neg hemp]
        cases hft : db.findTask tid with
        | none => exact ⟨[], by simp⟩
        | some task =>
          dsimp only
          cases hfs : db.findStep task.step_id with
          | none => exact ⟨[], by simp⟩
          | some cur =>
            dsimp only
            by_cases hc : task.cancelled = true
            · rw [if_pos hc]
              exact ⟨[], by simp⟩
            · rw [if_neg hc]
              cases hnas : nextAgentStep db task.project_id cur.position with
              | none => exact ⟨[], by simp⟩
              | some nas =>
                dsimp only
                have h2 := emit_event_events (db.updateTask tid (fun t =>
                  { t with step_id := nas.id, updated_at := now })) (gen 0)
                  now ("task_moved")
                  [("task_id", JsonVal.str tid),
                   ("old_step_id", JsonVal.str task.step_id),
                   ("new_step_id", JsonVal.str nas.id),
                   ("project_id", JsonVal.str task.project_id)]
                rw [updateTask_events] at h2
                refine ⟨_, h2, ?_⟩
                intro e he
                simp only [List.mem_singleton] at he
                subst he
                exact ⟨rfl, rfl, rfl, rfl, rfl, rfl⟩

/-- Witness for C8 at concrete input: the task_moved event of a concrete
successful move_task call carries all nine fields. -/
theorem c8_task_moved_payload_fields_witness :
    ∃ db2 suffix,
      move_task exDB wGen ("T1") ("tA") ("s2") = Except.ok db2 ∧
      db2.events = exDB.events ++ suffix ∧
      ∀ e ∈ suffix, e.type = "task_moved" →
        payloadHasAllNine e.payload = true := by
  obtain ⟨db2, hdb2⟩ :
      ∃ db2, move_task exDB wGen ("T1") ("tA") ("s2") = Except.ok db2 :=
    ⟨_, rfl⟩
  obtain ⟨suffix, hs, hp⟩ :=
    (c8_task_moved_payload_fields exDB wGen ("T1")).1 ("tA") ("s2") db2 hdb2
  exact ⟨db2, suffix, hdb2, hs, hp⟩

/-- Fixture event: task_ready for task tA of project p1. -/
def exEventReadyA : Event :=
  ⟨"e2", "task_ready",
   [("task_id", JsonVal.str ("tA")), ("project_id", JsonVal.str ("p1"))],
   "T0", false, false⟩

/-- Counterexample for C8 as stated: handling the task_ready event for tA
writes a task_moved event to the log whose payload lacks the name,
position and direction fields. -/
theorem c8_counterexample :
    ∃ e, (handle_task_ready exDB wGen ("T1") exEventReadyA).events = [e] ∧
      e.type = "task_moved" ∧ payloadHasAllNine e.payload = false := by
  refine ⟨⟨"uuid-0", "task_moved",
    [("task_id", JsonVal.str ("tA")), ("old_step_id", JsonVal.str ("s1")),
     ("new_step_id", JsonVal.str ("s2")),
     ("project_id", JsonVal.str ("p1"))], "T1", false, false⟩,
    by decide, by decide, by decide⟩

/-- Auxiliary: the events column does not influence is_blocked. -/
theorem is_blocked_set_events (db : DB) (E : List Event) (tid : String) :
    is_blocked { db with events := E } tid = is_blocked db tid := rfl

/-- Auxiliary: the events column does not influence a task lookup. -/
theorem findTask_set_events (db : DB) (E : List Event) (tid : String) :
    DB.findTask { db with events := E } tid = db.findTask tid := rfl

/-- Auxiliary: emitting an event does not influence is_blocked. -/
theorem is_blocked_emit_event (db : DB) (eid now ty : String) (p : Payload)
    (tid : String) :
    is_blocked (emit_event db eid now ty p) tid = is_blocked db tid := rfl

/-- C5: approve_plan rejects with invalid_input a non-milestone, an
already-approved milestone and a milestone without a child task (leaving
the store unchanged, which the error result models); on success it sets
plan_approved, appends exactly one plan_approved event followed by exactly
one task_ready event per non-blocked, non-cancelled child of the
milestone, in child order. -/
theorem c5_approve_plan_rules (db : DB) (gen : Nat → String) (now : String)
    (task_id : String) (task : Task)
    (ht : db.findTask task_id = some task)
    (hstep : ∃ st, db.findStep task.step_id = some st) :
    (task.type ≠ "milestone" →
      approve_plan db gen now task_id =
        Except.error ⟨ErrKind.invalid_input, "Only milestones can be approved"⟩)
    ∧ (task.type = "milestone" → task.plan_approved = true →
      approve_plan db gen now task_id =
        Except.error ⟨ErrKind.invalid_input,
          "This milestone is already approved"⟩)
    ∧ (task.type = "milestone" → task.plan_approved = false →
      (db.tasks.filter (fun t => t.parent_task_id = some task_id)).isEmpty =
        true →
      approve_plan db gen now task_id =
        Except.error ⟨ErrKind.invalid_input,
          "Milestone must have at least one child task before approval"⟩)
    ∧ (∀ db2, approve_plan db gen now task_id = Except.ok db2 →
      ((db2.findTask task_id).map (fun t => t.plan_approved) = some true ∧
        db2.events = db.events ++
          (⟨gen 0, "plan_approved",
            [("task_id", JsonVal.str task_id),
             ("project_id", JsonVal.str task.project_id)],
            now, false, false⟩ ::
          (((db.tasks.filter (fun t =>
              t.parent_task_id = some task_id ∧ t.cancelled = false)).filter
              (fun c => !(is_blocked db2 c.id))).enum.map (fun kc =>
            taskReadyEvent (gen (1 + kc.1)) now kc.2.id
              task.project_id))))) := by
  obtain ⟨st, hstep⟩ := hstep
  refine ⟨?_, ?_, ?_, ?_⟩
  · intro hty
    unfold approve_plan
    simp only [ht, hstep]
    rw [if_pos hty]
  · intro hty happ
    unfold approve_plan
    simp only [ht, hstep]
    rw [if_neg (by simp [hty]), if_pos happ]
  · intro hty happ hnochild
    unfold approve_plan
    simp only [ht, hstep]
    rw [if_neg (by simp [hty]), if_neg (by simp [happ]), if_pos]
    rw [List.isEmpty_iff] at hnochild ⊢
    rw [List.filter_eq_nil_iff] at hnochild ⊢
    intro t htmem
    have := hnochild t htmem
    simp only [decide_eq_true_eq] at this ⊢
    intro hcon
    exact this hcon.1
  · intro db2 h
    unfold approve_plan at h
    simp only [ht, hstep] at h
    by_cases hty : task.type ≠ "milestone"
    · rw [if_pos hty] at h; cases h
    · rw [if_neg hty] at h
      by_cases happ : task.plan_approved = true
      · rw [if_pos happ] at h; cases h
      · rw [if_neg happ] at h
        by_cases hemp : (db.tasks.filter (fun t =>
            t.parent_task_id = some task_id ∧ t.cancelled = false)).isEmpty =
            true
        · rw [if_pos hemp] at h; cases h
        · rw [if_neg hemp] at h
          simp only [Except.ok.injEq] at h
          obtain rfl := h
          constructor
          · rw [findTask_set_events, findTask_emit_event,
              findTask_updateTask db task_id
                (fun t => { t with plan_approved := true, updated_at := now })
                (fun u => rfl), ht]
            rfl
          · simp only [is_blocked_set_events, findTask_set_events]
            rw [emit_event_events, updateTask_events]
            simp [is_blocked_set_events, is_blocked_emit_event,
              List.append_assoc]

/-- Fixture milestone tM of project p1 at Plan, unapproved. -/
def exTaskM : Task :=
  ⟨"tM", "p1", none, "M", "", "s0", false, "milestone", false, none, none,
   none, none, "T0", "T0"⟩

/-- Fixture child tC1 of milestone tM, at Plan. -/
def exTaskC1 : Task :=
  ⟨"tC1", "p1", some ("tM"), "C1", "", "s0", false, "task", false, none,
   none, none, none, "T0", "T0"⟩

/-- Fixture database with a milestone and one child. -/
def exDBm : DB := { exDB with tasks := [exTaskA, exTaskM, exTaskC1] }

/-- Witness for C5 at concrete input: approving the plain task tA is
rejected as invalid_input, and approving milestone tM (one non-cancelled,
non-blocked child) succeeds and sets plan_approved. -/
theorem c5_approve_plan_rules_witness :
    approve_plan exDBm wGen ("T1") ("tA") =
      Except.error ⟨ErrKind.invalid_input,
        "Only milestones can be approved"⟩ ∧
    ∃ db2, approve_plan exDBm wGen ("T1") ("tM") = Except.ok db2 ∧
      (db2.findTask ("tM")).map (fun t => t.plan_approved) = some true := by
  constructor
  · exact (c5_approve_plan_rules exDBm wGen ("T1") ("tA") exTaskA
      (by decide) ⟨exStep1, by decide⟩).1 (by decide)
  · obtain ⟨db2, hdb2⟩ :
        ∃ db2, approve_plan exDBm wGen ("T1") ("tM") = Except.ok db2 :=
      ⟨_, rfl⟩
    have h := (c5_approve_plan_rules exDBm wGen ("T1") ("tM") exTaskM
      (by decide) ⟨exStep0, by decide⟩).2.2.2 db2 hdb2
    exact ⟨db2, hdb2, h.1⟩

/-- Directed edge of the dependency graph induced by the table rows. -/
def EdgeRel (deps : List TaskDependency) (a b : String) : Prop :=
  ∃ d ∈ deps, d.predecessor_id = a ∧ d.successor_id = b

/-- Auxiliary: membership in successorsOf is exactly the edge relation. -/
theorem succ_mem_edge (deps : List TaskDependency) (c x : String)
    (h : x ∈ successorsOf deps c) : EdgeRel deps c x := by
  simp only [successorsOf, List.mem_map, List.mem_filter] at h
  obtain ⟨d, ⟨hd, hp⟩, rfl⟩ := h
  exact ⟨d, hd, by simpa using hp, rfl⟩

/-- Auxiliary: converse of succ_mem_edge. -/
theorem edge_succ_mem (deps : List TaskDependency) (c x : String)
    (h : EdgeRel deps c x) : x ∈ successorsOf deps c := by
  obtain ⟨d, hd, hp, hs⟩ := h
  simp only [successorsOf, List.mem_map, List.mem_filter]
  exact ⟨d, ⟨hd, by simpa using hp⟩, hs⟩

/-- Soundness of the worklist search: a true answer means the target is
forward-reachable from every-queue-origin root. -/
theorem bfsReaches_sound (deps : List TaskDependency) (target root : String) :
    ∀ (fuel : Nat) (visited queue : List String),
      (∀ x ∈ queue, Relation.ReflTransGen (EdgeRel deps) root x) →
      bfsReaches deps target fuel visited queue = true →
      Relation.ReflTransGen (EdgeRel deps) root target := by
  intro fuel
  induction fuel with
  | zero => intro visited queue hq h; cases h
  | succ fuel ih =>
    intro visited queue hq h
    cases queue with
    | nil => cases h
    | cons current rest =>
      unfold bfsReaches at h
      by_cases hcur : current = target
      · exact hcur ▸ hq current (List.mem_cons_self _ _)
      · rw [if_neg hcur] at h
        by_cases hvis : visited.contains current = true
        · rw [if_pos hvis] at h
          exact ih visited rest
            (fun x hx => hq x (List.mem_cons_of_mem _ hx)) h
        · rw [if_neg hvis] at h
          refine ih _ _ ?_ h
          intro x hx
          rcases List.mem_append.mp hx with hx | hx
          · exact hq x (List.mem_cons_of_mem _ hx)
          · exact Relation.ReflTransGen.tail
              (hq current (List.mem_cons_self _ _))
              (succ_mem_edge deps current x hx)

/-- Auxiliary counting lemma: two disjoint Boolean classes each contained
in a third class cannot jointly outnumber it. -/
theorem three_filter_le {α : Type} (l : List α) (p q r : α → Bool)
    (h : ∀ a, (p a = true → r a = true) ∧ (q a = true → r a = true) ∧
      ¬(p a = true ∧ q a = true)) :
    (l.filter p).length + (l.filter q).length ≤ (l.filter r).length := by
  induction l with
  | nil => simp
  | cons a l ih =>
    have ha := h a
    simp only [List.filter_cons]
    by_cases hp : p a = true
    · rw [if_pos hp, if_pos (ha.1 hp), if_neg (fun hq => ha.2.2 ⟨hp, hq⟩)]
      simp only [List.length_cons]
      omega
    · rw [if_neg hp]
      by_cases hq : q a = true
      · rw [if_pos hq, if_pos (ha.2.1 hq)]
        simp only [List.length_cons]
        omega
      · rw [if_neg hq]
        by_cases hr : r a = true
        · rw [if_pos hr]
          simp only [List.length_cons]
          omega
        · rw [if_neg hr]
          exact ih

/-- Fuel measure of the worklist search: unexpanded edges plus queue
length; it strictly decreases at every loop iteration. -/
def bfsMeasure (deps : List TaskDependency) (visited queue : List String) :
    Nat :=
  (deps.filter (fun d => !(visited.contains d.predecessor_id))).length +
    queue.length

/-- Auxiliary: expanding a fresh node pays for its out-edges. -/
theorem filter_split_le (deps : List TaskDependency) (visited : List String)
    (c : String) (hc : visited.contains c = false) :
    (deps.filter (fun d =>
      !((c :: visited).contains d.predecessor_id))).length +
      (successorsOf deps c).length ≤
    (deps.filter (fun d => !(visited.contains d.predecessor_id))).length := by
  have hs : (successorsOf deps c).length =
      (deps.filter (fun d => d.predecessor_id = c)).length := by
    simp [successorsOf]
  rw [hs]
  refine three_filter_le deps _ _ _ ?_
  intro d
  refine ⟨?_, ?_, ?_⟩
  · intro hp
    simp only [List.contains_cons, Bool.not_eq_true', Bool.or_eq_false_iff]
      at hp
    simpa using hp.2
  · intro hq
    simp only [decide_eq_true_eq] at hq
    rw [hq]
    simpa using hc
  · rintro ⟨hp, hq⟩
    simp only [decide_eq_true_eq] at hq
    simp [List.contains_cons, hq] at hp
/-- Auxiliary: a path from inside the visited set to an unvisited target
must leave through the queue of a successor-closed visited set. -/
theorem reach_escape (deps : List TaskDependency) (visited S : List String)
    (hclosed : ∀ v, visited.contains v = true → ∀ x, EdgeRel deps v x →
      (visited.contains x = true ∨ x ∈ S))
    (target : String) (htv : visited.contains target = false) :
    ∀ v, visited.contains v = true →
      Relation.ReflTransGen (EdgeRel deps) v target →
      ∃ w ∈ S, Relation.ReflTransGen (EdgeRel deps) w target := by
  intro v hv hpath
  induction hpath using Relation.ReflTransGen.head_induction_on with
  | refl => rw [hv] at htv; cases htv
  | head hedge hrest ihc =>
    rename_i a c
    rcases hclosed a hv c hedge with hcv | hcS
    · exact ihc hcv
    · exact ⟨c, hcS, hrest⟩

/-- Completeness of the worklist search: with fuel at least the measure, a
successor-closed visited set, an unvisited target and some queue entry
that reaches the target, the search answers true.  In particular the
Python while loop, whose iteration count the measure bounds, finds every
reachable target. -/
theorem bfsReaches_complete (deps : List TaskDependency) (target : String) :
    ∀ (fuel : Nat) (visited queue : List String),
      bfsMeasure deps visited queue ≤ fuel →
      (∀ v, visited.contains v = true → ∀ x, EdgeRel deps v x →
        (visited.contains x = true ∨ x ∈ queue)) →
      visited.contains target = false →
      (∃ q ∈ queue, Relation.ReflTransGen (EdgeRel deps) q target) →
      bfsReaches deps target fuel visited queue = true := by
  intro fuel
  induction fuel with
  | zero =>
    intro visited queue hm hcl htv hq
    obtain ⟨q, hqmem, _⟩ := hq
    simp only [bfsMeasure, Nat.le_zero, Nat.add_eq_zero] at hm
    have hq0 : queue = [] := List.length_eq_zero.mp hm.2
    rw [hq0] at hqmem
    cases hqmem
  | succ fuel ih =>
    intro visited queue hm hcl htv hq
    cases queue with
    | nil =>
      obtain ⟨q, hqmem, _⟩ := hq
      cases hqmem
    | cons current rest =>
      unfold bfsReaches
      by_cases hcur : current = target
      · rw [if_pos hcur]
      · rw [if_neg hcur]
        by_cases hvis : visited.contains current = true
        · rw [if_pos hvis]
          refine ih visited rest ?_ ?_ htv ?_
          · simp only [bfsMeasure, List.length_cons] at hm ⊢
            omega
          · intro v hv x hedge
            rcases hcl v hv x hedge with h | h
            · exact Or.inl h
            · rcases List.mem_cons.mp h with rfl | h2
              · exact Or.inl hvis
              · exact Or.inr h2
          · obtain ⟨q, hqmem, hqr⟩ := hq
            rcases List.mem_cons.mp hqmem with rfl | hqm
            · refine reach_escape deps visited rest ?_ target htv q hvis hqr
              intro v hv x hedge
              rcases hcl v hv x hedge with h | h
              · exact Or.inl h
              · rcases List.mem_cons.mp h with rfl | h2
                · exact Or.inl hvis
                · exact Or.inr h2
            · exact ⟨q, hqm, hqr⟩
        · rw [if_neg hvis]
          refine ih (current :: visited)
            (rest ++ successorsOf deps current) ?_ ?_ ?_ ?_
          · have hsplit := filter_split_le deps visited current
              (by simpa using hvis)
            simp only [bfsMeasure, List.length_append, List.length_cons]
              at hm ⊢
            omega
          · intro v hv x hedge
            simp only [List.contains_cons, Bool.or_eq_true] at hv
            rcases hv with hvc | hvv
            · have hveq : v = current := by simpa using hvc
              subst hveq
              exact Or.inr (List.mem_append.mpr
                (Or.inr (edge_succ_mem deps v x hedge)))
            · rcases hcl v hvv x hedge with h | h
              · exact Or.inl (by
                  simp only [List.contains_cons, h, Bool.or_true])
              · rcases List.mem_cons.mp h with rfl | h2
                · exact Or.inl (by
                    simp only [List.contains_cons, beq_self_eq_true,
                      Bool.true_or])
                · exact Or.inr (List.mem_append.mpr (Or.inl h2))
          · simp only [List.contains_cons, Bool.or_eq_false_iff]
            refine ⟨?_, htv⟩
            simpa using fun he => hcur he.symm
          · obtain ⟨q, hqmem, hqr⟩ := hq
            rcases List.mem_cons.mp hqmem with rfl | hqm
            · rcases Relation.ReflTransGen.cases_head hqr with rfl | hstep
              · exact absurd rfl hcur
              · obtain ⟨c, hedge, hrest⟩ := hstep
                exact ⟨c, List.mem_append.mpr
                  (Or.inr (edge_succ_mem deps q c hedge)), hrest⟩
            · exact ⟨q, List.mem_append.mpr (Or.inl hqm), hqr⟩

/-- Embedding-level statement that has_cycle computes exactly forward
reachability from the successor to the predecessor. -/
theorem has_cycle_iff_reaches (db : DB) (pred succ : String) :
    has_cycle db pred succ = true ↔
      Relation.ReflTransGen (EdgeRel db.task_dependencies) succ pred := by
  constructor
  · intro h
    refine bfsReaches_sound db.task_dependencies pred succ _ [] [succ]
      ?_ h
    intro x hx
    rcases List.mem_singleton.mp hx with rfl
    exact Relation.ReflTransGen.refl
  · intro h
    refine bfsReaches_complete db.task_dependencies pred _ [] [succ]
      ?_ ?_ rfl ⟨succ, List.mem_singleton.mpr rfl, h⟩
    · have hle := List.length_filter_le
        (fun d => !(([] : List String).contains d.predecessor_id))
        db.task_dependencies
      simp only [bfsMeasure, List.length_singleton]
      omega
    · intro v hv
      cases hv

/-- Acyclicity of the dependency graph: no edge closes a directed cycle. -/
def Acyclic (deps : List TaskDependency) : Prop :=
  ∀ d ∈ deps,
    ¬ Relation.ReflTransGen (EdgeRel deps) d.successor_id d.predecessor_id

/-- Auxiliary: edges of the extended graph. -/
theorem edge_append_single (deps : List TaskDependency) (e : TaskDependency)
    (a b : String) :
    EdgeRel (deps ++ [e]) a b ↔ EdgeRel deps a b ∨
      (e.predecessor_id = a ∧ e.successor_id = b) := by
  constructor
  · rintro ⟨d, hd, hp, hs⟩
    rcases List.mem_append.mp hd with hd | hd
    · exact Or.inl ⟨d, hd, hp, hs⟩
    · rcases List.mem_singleton.mp hd with rfl
      exact Or.inr ⟨hp, hs⟩
  · rintro (⟨d, hd, hp, hs⟩ | ⟨hp, hs⟩)
    · exact ⟨d, List.mem_append.mpr (Or.inl hd), hp, hs⟩
    · exact ⟨e, List.mem_append.mpr (Or.inr (List.mem_singleton.mpr rfl)),
        hp, hs⟩

/-- Auxiliary: a path of the graph extended by one edge either avoids the
new edge or splits at it, provided the new edge closes no cycle by
itself. -/
theorem reach_extend (deps : List TaskDependency) (e : TaskDependency)
    (hno : ¬ Relation.ReflTransGen (EdgeRel deps) e.successor_id
      e.predecessor_id) (x y : String)
    (h : Relation.ReflTransGen (EdgeRel (deps ++ [e])) x y) :
    Relation.ReflTransGen (EdgeRel deps) x y ∨
      (Relation.ReflTransGen (EdgeRel deps) x e.predecessor_id ∧
       Relation.ReflTransGen (EdgeRel deps) e.successor_id y) := by
  induction h using Relation.ReflTransGen.head_induction_on with
  | refl => exact Or.inl Relation.ReflTransGen.refl
  | head hedge hrest ihc =>
    rename_i a c
    rcases (edge_append_single deps e a c).mp hedge with hG | ⟨hp, hs⟩
    · rcases ihc with hcy | ⟨hcp, hsy⟩
      · exact Or.inl (Relation.ReflTransGen.head hG hcy)
      · exact Or.inr ⟨Relation.ReflTransGen.head hG hcp, hsy⟩
    · subst hp
      subst hs
      rcases ihc with hcy | ⟨hcp, hsy⟩
      · exact Or.inr ⟨Relation.ReflTransGen.refl, hcy⟩
      · exact absurd hcp hno

/-- Auxiliary: adding an edge whose reverse closure is empty preserves
acyclicity. -/
theorem acyclic_extend (deps : List TaskDependency) (e : TaskDependency)
    (hacy : Acyclic deps)
    (hno : ¬ Relation.ReflTransGen (EdgeRel deps) e.successor_id
      e.predecessor_id) : Acyclic (deps ++ [e]) := by
  intro d hd hreach
  rcases reach_extend deps e hno _ _ hreach with hG | ⟨h1, h2⟩
  · rcases List.mem_append.mp hd with hdG | hdE
    · exact hacy d hdG hG
    · rcases List.mem_singleton.mp hdE with rfl
      exact hno hG
  · rcases List.mem_append.mp hd with hdG | hdE
    · exact hno (Relation.ReflTransGen.trans
        (Relation.ReflTransGen.tail h2 ⟨d, hdG, rfl, rfl⟩) h1)
    · rcases List.mem_singleton.mp hdE with rfl
      exact hno h1

/-- C6: add_dependency rejects self-loops, duplicate edges and edges whose
target already reaches their source (each with invalid_input, the error
result modelling the unchanged store); on success the inserted row is the
only change to the graph and, because the reverse closure was empty,
acyclicity is preserved. -/
theorem c6_add_dependency_rules (db : DB) (gen : Nat → String)
    (now : String) (predecessor_id successor_id : String) :
    (predecessor_id = successor_id →
      add_dependency db gen now predecessor_id successor_id =
        Except.error ⟨ErrKind.invalid_input, "A task cannot depend on itself"⟩)
    ∧ (∀ d, predecessor_id ≠ successor_id →
        db.findTask predecessor_id ≠ none →
        db.findTask successor_id ≠ none →
        db.task_dependencies.find? (fun d =>
          d.predecessor_id = predecessor_id ∧
          d.successor_id = successor_id) = some d →
        add_dependency db gen now predecessor_id successor_id =
          Except.error ⟨ErrKind.invalid_input,
            "This dependency already exists"⟩)
    ∧ (predecessor_id ≠ successor_id →
        db.findTask predecessor_id ≠ none →
        db.findTask successor_id ≠ none →
        db.task_dependencies.find? (fun d =>
          d.predecessor_id = predecessor_id ∧
          d.successor_id = successor_id) = none →
        Relation.ReflTransGen (EdgeRel db.task_dependencies) successor_id
          predecessor_id →
        add_dependency db gen now predecessor_id successor_id =
          Except.error ⟨ErrKind.invalid_input,
            "Adding this dependency would create a cycle"⟩)
    ∧ (∀ db2, add_dependency db gen now predecessor_id successor_id =
          Except.ok db2 →
        db2.task_dependencies = db.task_dependencies ++
          [⟨gen 0, predecessor_id, successor_id, now⟩] ∧
        ¬ Relation.ReflTransGen (EdgeRel db.task_dependencies) successor_id
          predecessor_id ∧
        (Acyclic db.task_dependencies → Acyclic db2.task_dependencies)) := by
  refine ⟨?_, ?_, ?_, ?_⟩
  · intro hself
    unfold add_dependency
    rw [if_pos hself]
  · intro d hself hfp hfs hdup
    unfold add_dependency
    rw [if_neg hself]
    obtain ⟨tp, htp⟩ := Option.ne_none_iff_exists'.mp hfp
    obtain ⟨ts, hts⟩ := Option.ne_none_iff_exists'.mp hfs
    simp only [htp, hts, hdup]
  · intro hself hfp hfs hdup hreach
    unfold add_dependency
    rw [if_neg hself]
    obtain ⟨tp, htp⟩ := Option.ne_none_iff_exists'.mp hfp
    obtain ⟨ts, hts⟩ := Option.ne_none_iff_exists'.mp hfs
    simp only [htp, hts, hdup]
    rw [if_pos ((has_cycle_iff_reaches db predecessor_id
      successor_id).mpr hreach)]
  · intro db2 h
    unfold add_dependency at h
    by_cases hself : predecessor_id = successor_id
    · rw [if_pos hself] at h; cases h
    · rw [if_neg hself] at h
      cases hfp : db.findTask predecessor_id with
      | none => rw [hfp] at h; cases h
      | some tp =>
        simp only [hfp] at h
        cases hfs : db.findTask successor_id with
        | none => rw [hfs] at h; cases h
        | some ts =>
          simp only [hfs] at h
          cases hdup : db.task_dependencies.find? (fun d =>
              d.predecessor_id = predecessor_id ∧
              d.successor_id = successor_id) with
          | some d => rw [hdup] at h; cases h
          | none =>
            simp only [hdup] at h
            by_cases hcyc : has_cycle db predecessor_id successor_id = true
            · rw [if_pos hcyc] at h; cases h
            · rw [if_neg hcyc] at h
              simp only [Except.ok.injEq] at h
              obtain rfl := h
              have hnoreach : ¬ Relation.ReflTransGen
                  (EdgeRel db.task_dependencies) successor_id
                  predecessor_id := fun hr =>
                hcyc ((has_cycle_iff_reaches db predecessor_id
                  successor_id).mpr hr)
              refine ⟨rfl, hnoreach, ?_⟩
              intro hacy
              exact acyclic_extend db.task_dependencies
                ⟨gen 0, predecessor_id, successor_id, now⟩ hacy hnoreach

/-- Fixture tasks tX, tY, tZ of project p1 at Plan. -/
def exTaskX : Task :=
  ⟨"tX", "p1", none, "X", "", "s0", false, "task", false, none, none,
   none, none, "T0", "T0"⟩

/-- Fixture task tY. -/
def exTaskY : Task :=
  ⟨"tY", "p1", none, "Y", "", "s0", false, "task", false, none, none,
   none, none, "T0", "T0"⟩

/-- Fixture task tZ. -/
def exTaskZ : Task :=
  ⟨"tZ", "p1", none, "Z", "", "s0", false, "task", false, none, none,
   none, none, "T0", "T0"⟩

/-- Fixture edge tX -> tY. -/
def exDepXY : TaskDependency := ⟨"d1", "tX", "tY", "T0"⟩

/-- Fixture edge tY -> tZ. -/
def exDepYZ : TaskDependency := ⟨"d2", "tY", "tZ", "T0"⟩

/-- Fixture database with chain tX -> tY -> tZ. -/
def exDBdeps : DB :=
  { exDB with
    tasks := [exTaskX, exTaskY, exTaskZ]
    task_dependencies := [exDepXY, exDepYZ] }

/-- Witness for C6 at concrete input: with the chain tX -> tY -> tZ,
adding tZ -> tX is rejected as a cycle, while adding tX -> tZ succeeds and
keeps the graph acyclic. -/
theorem c6_add_dependency_rules_witness :
    add_dependency exDBdeps wGen ("T1") ("tZ") ("tX") =
      Except.error ⟨ErrKind.invalid_input,
        "Adding this dependency would create a cycle"⟩ ∧
    ∃ db2, add_dependency exDBdeps wGen ("T1") ("tX") ("tZ") =
      Except.ok db2 ∧ Acyclic db2.task_dependencies := by
  have hacy : Acyclic exDBdeps.task_dependencies := by
    intro d hd hr
    have hd2 : d = exDepXY ∨ d = exDepYZ := by
      simpa [exDBdeps, exDepXY, exDepYZ] using hd
    rcases hd2 with rfl | rfl
    · have := (has_cycle_iff_reaches exDBdeps ("tX") ("tY")).mpr hr
      rw [show has_cycle exDBdeps ("tX") ("tY") = false from by decide]
        at this
      cases this
    · have := (has_cycle_iff_reaches exDBdeps ("tY") ("tZ")).mpr hr
      rw [show has_cycle exDBdeps ("tY") ("tZ") = false from by decide]
        at this
      cases this
  constructor
  · refine (c6_add_dependency_rules exDBdeps wGen ("T1") ("tZ")
      ("tX")).2.2.1 (by decide) (by decide) (by decide) (by decide) ?_
    exact (has_cycle_iff_reaches exDBdeps ("tZ") ("tX")).mp (by decide)
  · obtain ⟨db2, hdb2⟩ :
        ∃ db2, add_dependency exDBdeps wGen ("T1") ("tX") ("tZ") =
          Except.ok db2 := ⟨_, rfl⟩
    obtain ⟨heq, hno, hpres⟩ := (c6_add_dependency_rules exDBdeps wGen
      ("T1") ("tX") ("tZ")).2.2.2 db2 hdb2
    exact ⟨db2, hdb2, hpres hacy⟩

/-- Effective from-index of a dependencies entry: from_index, falling back
to the legacy key named from, exactly as the source reads the dict. -/
def effFromIndex (dep : DepSpec) : Option Int :=
  dep.from_index.orElse (fun _ => dep.from_legacy)

/-- Effective to-index of a dependencies entry. -/
def effToIndex (dep : DepSpec) : Option Int :=
  dep.to_index.orElse (fun _ => dep.to_legacy)

/-- Whether a dependencies entry has both effective indices present and in
range for the created batch. -/
def depInRange (created : List Task) (dep : DepSpec) : Bool :=
  match effFromIndex dep, effToIndex dep with
  | some fi, some ti =>
    decide (0 ≤ fi ∧ fi < (created.length : Int) ∧ 0 ≤ ti ∧
      ti < (created.length : Int))
  | _, _ => false

/-- C10 (amended): create_subtasks never fails because of the dependencies
argument - the success of the call does not depend on it at all - and the
intra-batch edges inserted are exactly one per entry whose effective
indices (from_index falling back to the legacy key from, to_index falling
back to the legacy key to) are both present and within the created batch,
wired between the indexed children; entries with a missing or out-of-range
effective index are silently skipped. -/
theorem c10_create_subtasks_dependencies (db : DB) (gen : Nat → String)
    (now : String) (pid : String) (specs : List TaskSpec)
    (dstep : Option String) (casc : Option String) :
    (∀ deps deps',
      (create_subtasks db gen now pid specs dstep deps casc).isOk =
      (create_subtasks db gen now pid specs dstep deps' casc).isOk)
    ∧ (∀ (created : List Task) (ctr : Nat) (deps : List DepSpec),
      (buildBatchDeps created gen now ctr deps).1.length =
        (deps.filter (depInRange created)).length ∧
      ∀ e ∈ (buildBatchDeps created gen now ctr deps).1,
        ∃ dep ∈ deps, depInRange created dep = true ∧
          e.predecessor_id =
            idAt created (((effFromIndex dep).getD 0).toNat) ∧
          e.successor_id = idAt created (((effToIndex dep).getD 0).toNat))
    ∧ (∀ deps db2,
      create_subtasks db gen now pid specs dstep (some deps) none =
        Except.ok db2 →
      ∃ created, db2.task_dependencies = db.task_dependencies ++
        (buildBatchDeps created gen now created.length deps).1) := by
  refine ⟨?_, ?_, ?_⟩
  · intro deps deps'
    unfold create_subtasks
    cases hft : db.findTask pid with
    | none => rfl
    | some parent =>
      dsimp only
      split
      · rfl
      · split
        · rfl
        · rfl
  · intro created ctr₀ deps
    induction deps generalizing ctr₀ with
    | nil => exact ⟨rfl, by intro e he; cases he⟩
    | cons dep rest ih =>
      unfold buildBatchDeps
      cases hf : dep.from_index.orElse (fun _ => dep.from_legacy) with
      | none =>
        dsimp only
        refine ⟨?_, ?_⟩
        · rw [(ih ctr₀).1]
          have : depInRange created dep = false := by
            simp [depInRange, effFromIndex, hf]
          simp [List.filter, this]
        · intro e he
          obtain ⟨d2, hd2, hr, hp, hs⟩ := (ih ctr₀).2 e he
          exact ⟨d2, List.mem_cons_of_mem _ hd2, hr, hp, hs⟩
      | some fi =>
        cases ht : dep.to_index.orElse (fun _ => dep.to_legacy) with
        | none =>
          dsimp only
          refine ⟨?_, ?_⟩
          · rw [(ih ctr₀).1]
            have : depInRange created dep = false := by
              simp [depInRange, effFromIndex, effToIndex, hf, ht]
            simp [List.filter, this]
          · intro e he
            obtain ⟨d2, hd2, hr, hp, hs⟩ := (ih ctr₀).2 e he
            exact ⟨d2, List.mem_cons_of_mem _ hd2, hr, hp, hs⟩
        | some ti =>
          dsimp only
          by_cases hb : (0 ≤ fi ∧ fi < (created.length : Int) ∧ 0 ≤ ti ∧
              ti < (created.length : Int))
          · rw [if_pos hb]
            have hdr : depInRange created dep = true := by
              simp [depInRange, effFromIndex, effToIndex, hf, ht, hb]
            refine ⟨?_, ?_⟩
            · simp only [List.length_cons, (ih (ctr₀ + 1)).1,
                List.filter, hdr]
            · intro e he
              rcases List.mem_cons.mp he with rfl | hmem
              · refine ⟨dep, List.mem_cons_self _ _, hdr, ?_, ?_⟩
                · simp [effFromIndex, hf]
                · simp [effToIndex, ht]
              · obtain ⟨d2, hd2, hr, hp, hs⟩ := (ih (ctr₀ + 1)).2 e hmem
                exact ⟨d2, List.mem_cons_of_mem _ hd2, hr, hp, hs⟩
          · rw [if_neg hb]
            have hdr : depInRange created dep = false := by
              simp only [depInRange, effFromIndex, effToIndex, hf, ht]
              simpa using hb
            refine ⟨?_, ?_⟩
            · rw [(ih ctr₀).1]
              simp [List.filter, hdr]
            · intro e he
              obtain ⟨d2, hd2, hr, hp, hs⟩ := (ih ctr₀).2 e he
              exact ⟨d2, List.mem_cons_of_mem _ hd2, hr, hp, hs⟩
  · intro deps db2 h
    unfold create_subtasks at h
    cases hft : db.findTask pid with
    | none => rw [hft] at h; cases h
    | some parent =>
      simp only [hft] at h
      split at h
      · cases h
      · split at h
        · cases h
        · rename_i created hrows
          simp only [Except.ok.injEq] at h
          obtain rfl := h
          refine ⟨created, ?_⟩
          simp [optTruthy, emit_event, DB.updateTask]

/-- Fixture parent task tP of project p1 at Plan. -/
def exTaskP : Task :=
  ⟨"tP", "p1", none, "P", "", "s0", false, "task", false, none, none,
   none, none, "T0", "T0"⟩

/-- Fixture database with just the parent task. -/
def exDBsub : DB := { exDB with tasks := [exTaskP] }

/-- Witness for C10 at concrete input: a batch of two children with one
in-range dependencies entry succeeds, and the inserted edges are those of
the batch loop. -/
theorem c10_create_subtasks_dependencies_witness :
    ∃ db2 created,
      create_subtasks exDBsub wGen ("T1") ("tP")
        [⟨"S1", none, none, none⟩, ⟨"S2", none, none, none⟩]
        (some ("s1")) (some [⟨some 0, some 1, none, none⟩]) none =
        Except.ok db2 ∧
      db2.task_dependencies = exDBsub.task_dependencies ++
        (buildBatchDeps created wGen ("T1") created.length
          [⟨some 0, some 1, none, none⟩]).1 := by
  obtain ⟨db2, hdb2⟩ :
      ∃ db2, create_subtasks exDBsub wGen ("T1") ("tP")
        [⟨"S1", none, none, none⟩, ⟨"S2", none, none, none⟩]
        (some ("s1")) (some [⟨some 0, some 1, none, none⟩]) none =
        Except.ok db2 := ⟨_, rfl⟩
  obtain ⟨created, hc⟩ := (c10_create_subtasks_dependencies exDBsub wGen
    ("T1") ("tP") [⟨"S1", none, none, none⟩, ⟨"S2", none, none, none⟩]
    (some ("s1")) none).2.2 [⟨some 0, some 1, none, none⟩] db2 hdb2
  exact ⟨db2, created, hdb2, hc⟩

/-- Counterexample for C10 as stated: an entry whose from_index key is
absent (supplying only the undocumented legacy key named from) still
inserts a dependency edge between the two created children, instead of
being skipped. -/
theorem c10_counterexample :
    ∃ db2,
      create_subtasks exDBsub wGen ("T1") ("tP")
        [⟨"S1", none, none, none⟩, ⟨"S2", none, none, none⟩]
        (some ("s1")) (some [⟨none, some 1, some 0, none⟩]) none =
        Except.ok db2 ∧
      db2.task_dependencies = [⟨"uuid-2", "uuid-0", "uuid-1", "T1"⟩] := by
  refine ⟨_, rfl, by decide⟩

/-- Auxiliary: a key-preserving point update leaves other lookups alone
(list level). -/
theorem find?_map_update_other (l : List Task) (x tid : String)
    (f : Task → Task) (hf : ∀ t, (f t).id = t.id) (hne : x ≠ tid) :
    (l.map (fun t => if t.id = x then f t else t)).find?
      (fun t => t.id = tid) = l.find? (fun t => t.id = tid) := by
  induction l with
  | nil => rfl
  | cons a l ih =>
    by_cases ha : a.id = x
    · have hfa : (f a).id = a.id := hf a
      simp only [List.map_cons, if_pos ha, List.find?]
      rw [show (decide ((f a).id = tid)) = decide (a.id = tid) by rw [hfa]]
      have : decide (a.id = tid) = false := by
        simp [ha, hne]
      rw [this]
      exact ih
    · simp only [List.map_cons, if_neg ha, List.find?]
      cases hdec : decide (a.id = tid)
      · exact ih
      · rfl

/-- Auxiliary: DB-level form of find?_map_update_other. -/
theorem findTask_updateTask_other (db : DB) (x tid : String)
    (f : Task → Task) (hf : ∀ t, (f t).id = t.id) (hne : x ≠ tid) :
    (db.updateTask x f).findTask tid = db.findTask tid := by
  simpa [DB.updateTask, DB.findTask] using
    find?_map_update_other db.tasks x tid f hf hne

/-- Auxiliary: task updates and event writes change no workflow-step
lookup. -/
theorem findStep_updateTask (db : DB) (tid : String) (f : Task → Task)
    (sid : String) : (db.updateTask tid f).findStep sid = db.findStep sid :=
  rfl

/-- Auxiliary: stepAtPosition only reads workflow steps. -/
theorem stepAtPosition_updateTask (db : DB) (tid : String) (f : Task → Task)
    (pid : String) (pos : Nat) :
    stepAtPosition (db.updateTask tid f) pid pos =
      stepAtPosition db pid pos := rfl

/-- Auxiliary: terminalStep only reads workflow steps. -/
theorem terminalStep_updateTask (db : DB) (tid : String) (f : Task → Task)
    (pid : String) :
    terminalStep (db.updateTask tid f) pid = terminalStep db pid := rfl

/-- Auxiliary: the max-by-position fold bounds every element of the
folded list. -/
theorem foldl_maxpos_bound (l : List WorkflowStep) :
    ∀ (acc : Option WorkflowStep) (m : WorkflowStep),
      l.foldl (fun acc s =>
        match acc with
        | none => some s
        | some b => if s.position > b.position then some s else acc)
        acc = some m →
      (∀ s ∈ l, s.position ≤ m.position) ∧
      (∀ b, acc = some b → b.position ≤ m.position) := by
  induction l with
  | nil =>
    intro acc m h
    simp only [List.foldl_nil] at h
    constructor
    · intro s hs
      cases hs
    · intro b hb
      rw [hb] at h
      obtain rfl := Option.some.inj h
      exact Nat.le_refl _
  | cons a l ih =>
    intro acc m h
    rw [List.foldl_cons] at h
    obtain ⟨hl, hacc⟩ := ih _ m h
    have hstep : ∃ c, (match acc with
        | none => some a
        | some b => if a.position > b.position then some a else acc) =
          some c ∧ a.position ≤ c.position ∧
          (∀ b, acc = some b → b.position ≤ c.position) := by
      cases acc with
      | none =>
        exact ⟨a, rfl, Nat.le_refl _, by intro b hb; cases hb⟩
      | some b0 =>
        by_cases hgt : a.position > b0.position
        · refine ⟨a, by dsimp only; rw [if_pos hgt], Nat.le_refl _, ?_⟩
          intro b hb
          cases hb
          exact Nat.le_of_lt hgt
        · refine ⟨b0, by dsimp only; rw [if_neg hgt],
            Nat.le_of_not_lt hgt, ?_⟩
          intro b hb
          cases hb
          exact Nat.le_refl _
    obtain ⟨c, hc, hac, hbc⟩ := hstep
    have hcm : c.position ≤ m.position := hacc c hc
    refine ⟨?_, ?_⟩
    · intro s hs
      rcases List.mem_cons.mp hs with rfl | hs
      · exact Nat.le_trans hac hcm
      · exact hl s hs
    · intro b hb
      exact Nat.le_trans (hbc b hb) hcm

/-- Auxiliary: there is no step one past the terminal position. -/
theorem stepAtPosition_above_terminal (db : DB) (pid : String)
    (term : WorkflowStep) (h : terminalStep db pid = some term) :
    stepAtPosition db pid (term.position + 1) = none := by
  cases hs : stepAtPosition db pid (term.position + 1) with
  | none => rfl
  | some s =>
    have hmem := List.mem_of_find?_eq_some hs
    have hpred := List.find?_some hs
    simp only [decide_eq_true_eq] at hpred
    have hfil : s ∈ db.workflow_steps.filter
        (fun s => s.project_id = pid) := by
      rw [List.mem_filter]
      exact ⟨hmem, by simp [hpred.1]⟩
    have := (foldl_maxpos_bound _ none term h).1 s hfil
    omega

/-- Auxiliary: the sibling-completion recursion never touches the row of a
task that has no step after its current one (in particular a task at the
terminal position), because every move it makes requires a next step. -/
theorem check_sibling_preserves_stuck (gen : Nat → String) (now : String) :
    ∀ (fuel : Nat) (db : DB) (ctr : Nat) (x : String) (db2 : DB)
      (ctr2 : Nat) (tid : String) (u : Task),
      check_sibling_completion gen now fuel db ctr x =
        Except.ok (db2, ctr2) →
      db.findTask tid = some u →
      (∀ s, db.findStep u.step_id = some s →
        stepAtPosition db u.project_id (s.position + 1) = none) →
      db2.findTask tid = some u := by
  intro fuel
  induction fuel with
  | zero =>
    intro db ctr x db2 ctr2 tid u h htid hstuck
    simp only [check_sibling_completion, Except.ok.injEq,
      Prod.mk.injEq] at h
    obtain ⟨rfl, rfl⟩ := h
    exact htid
  | succ fuel ih =>
    intro db ctr x db2 ctr2 tid u h htid hstuck
    unfold check_sibling_completion at h
    cases hft : db.findTask x with
    | none =>
      simp only [hft, Except.ok.injEq, Prod.mk.injEq] at h
      obtain ⟨rfl, rfl⟩ := h
      exact htid
    | some parent =>
      simp only [hft] at h
      cases hfs : db.findStep parent.step_id with
      | none =>
        simp only [hfs, Except.ok.injEq, Prod.mk.injEq] at h
        obtain ⟨rfl, rfl⟩ := h
        exact htid
      | some pstep =>
        simp only [hfs] at h
        by_cases hty : (parent.type ≠ "milestone" ∨ parent.cancelled = true)
        · rw [if_pos hty] at h
          simp only [Except.ok.injEq, Prod.mk.injEq] at h
          obtain ⟨rfl, rfl⟩ := h
          exact htid
        · rw [if_neg hty] at h
          by_cases hemp : (joinedChildren db x).isEmpty = true
          · rw [if_pos hemp] at h
            simp only [Except.ok.injEq, Prod.mk.injEq] at h
            obtain ⟨rfl, rfl⟩ := h
            exact htid
          · rw [if_neg hemp] at h
            cases hterm : terminalStep db parent.project_id with
            | none => rw [hterm] at h; cases h
            | some terminal =>
              simp only [hterm] at h
              by_cases hall : ((!((joinedChildren db x).all
                  (fun c => c.2.position = terminal.position))) = true)
              · rw [if_pos hall] at h
                simp only [Except.ok.injEq, Prod.mk.injEq] at h
                obtain ⟨rfl, rfl⟩ := h
                exact htid
              · rw [if_neg hall] at h
                cases hnext : stepAtPosition db parent.project_id
                    (pstep.position + 1) with
                | none =>
                  simp only [hnext, Except.ok.injEq, Prod.mk.injEq] at h
                  obtain ⟨rfl, rfl⟩ := h
                  exact htid
                | some next_step =>
                  by_cases hx : x = tid
                  · subst hx
                    rw [htid] at hft
                    obtain rfl := Option.some.inj hft
                    rw [hstuck pstep hfs] at hnext
                    cases hnext
                  · simp only [hnext] at h
                    have htid2 : ((db.updateTask x (fun t =>
                        { t with
                          step_id := next_step.id
                          updated_at := now })).findTask tid) = some u := by
                      rw [findTask_updateTask_other db x tid
                        (fun t => { t with
                          step_id := next_step.id
                          updated_at := now })
                        (fun t => rfl) hx]
                      exact htid
                    by_cases hpos : next_step.position = terminal.position
                    · rw [if_pos hpos] at h
                      by_cases hpp : optTruthy parent.parent_task_id = true
                      · rw [if_pos hpp] at h
                        exact ih _ _ _ _ _ _ _ h htid2
                          (fun s hs => hstuck s hs)
                      · rw [if_neg hpp] at h
                        simp only [Except.ok.injEq, Prod.mk.injEq] at h
                        obtain ⟨rfl, rfl⟩ := h
                        exact htid2
                    · rw [if_neg hpos] at h
                      simp only [Except.ok.injEq, Prod.mk.injEq] at h
                      obtain ⟨rfl, rfl⟩ := h
                      exact htid2

/-- Auxiliary: joinedChildren ignores the events column. -/
theorem joinedChildren_emit_event (db : DB) (eid now ty : String)
    (p : Payload) (pid : String) :
    joinedChildren (emit_event db eid now ty p) pid =
      joinedChildren db pid := rfl

/-- Auxiliary: joinedChildren ignores cascade event writes. -/
theorem joinedChildren_cascade (db : DB) (gen : Nat → String) (base : Nat)
    (now tid pid : String) :
    joinedChildren (cascade_unblock db gen base now tid) pid =
      joinedChildren db pid := rfl

/-- Auxiliary: task lookups ignore cascade event writes. -/
theorem findTask_cascade (db : DB) (gen : Nat → String) (base : Nat)
    (now tid x : String) :
    (cascade_unblock db gen base now tid).findTask x = db.findTask x := rfl

/-- Auxiliary: step lookups ignore cascade event writes. -/
theorem findStep_cascade (db : DB) (gen : Nat → String) (base : Nat)
    (now tid sid : String) :
    (cascade_unblock db gen base now tid).findStep sid =
      db.findStep sid := rfl

/-- Auxiliary: the events written by cascade_unblock. -/
theorem cascade_unblock_tasks (db : DB) (gen : Nat → String) (base : Nat)
    (now tid : String) :
    (cascade_unblock db gen base now tid).tasks = db.tasks := rfl

/-- Auxiliary: step lookups ignore event writes. -/
theorem findStep_emit_event (db : DB) (eid now ty : String) (p : Payload)
    (sid : String) :
    (emit_event db eid now ty p).findStep sid = db.findStep sid := rfl

/-- Auxiliary: stepAtPosition ignores event writes. -/
theorem stepAtPosition_emit_event (db : DB) (eid now ty : String)
    (p : Payload) (pid : String) (pos : Nat) :
    stepAtPosition (emit_event db eid now ty p) pid pos =
      stepAtPosition db pid pos := rfl

/-- Auxiliary: stepAtPosition ignores cascade event writes. -/
theorem stepAtPosition_cascade (db : DB) (gen : Nat → String) (base : Nat)
    (now tid pid : String) (pos : Nat) :
    stepAtPosition (cascade_unblock db gen base now tid) pid pos =
      stepAtPosition db pid pos := rfl

/-- Auxiliary: terminalStep ignores event writes. -/
theorem terminalStep_emit_event (db : DB) (eid now ty : String)
    (p : Payload) (pid : String) :
    terminalStep (emit_event db eid now ty p) pid = terminalStep db pid :=
  rfl

/-- Auxiliary: terminalStep ignores cascade event writes. -/
theorem terminalStep_cascade (db : DB) (gen : Nat → String) (base : Nat)
    (now tid pid : String) :
    terminalStep (cascade_unblock db gen base now tid) pid =
      terminalStep db pid := rfl

/-- Auxiliary: events of the sibling recursion only grow (weaker corollary
of check_sibling_events_nine used to place first-level events). -/
theorem check_sibling_events_mono (gen : Nat → String) (now : String)
    (fuel : Nat) (db : DB) (ctr : Nat) (pid : String) (db2 : DB)
    (ctr2 : Nat)
    (h : check_sibling_completion gen now fuel db ctr pid =
      Except.ok (db2, ctr2)) :
    ∃ suffix, db2.events = db.events ++ suffix := by
  obtain ⟨suffix, hs, _⟩ := check_sibling_events_nine gen now fuel db ctr
    pid db2 ctr2 h
  exact ⟨suffix, hs⟩

/-- C4 (amended): when complete_task(T) succeeds and the parent P of T is a
non-cancelled milestone of the same project, then: if after the move of T
every non-cancelled child of P sits at the terminal position and a step at
position(P) + 1 exists, P is moved to exactly that step and a task_moved
event for P is appended; if that landing step is the terminal one, a
milestone_completed event for P is appended as well (and the check
recurses on the parent of P); and if some non-cancelled child of P is not
at terminal, the step of P is unchanged. -/
theorem c4_sibling_auto_advance (db : DB) (gen : Nat → String)
    (now : String) (t p : Task) (pid : String)
    (cs ps terminal : WorkflowStep)
    (ht : db.findTask t.id = some t)
    (hcs : db.findStep t.step_id = some cs)
    (hcanc : t.cancelled = false)
    (hterm : terminalStep db t.project_id = some terminal)
    (hfterm : db.findStep terminal.id = some terminal)
    (hnt : t.step_id ≠ terminal.id)
    (hpar : t.parent_task_id = some pid)
    (hpid : pid ≠ "")
    (hPneq : pid ≠ t.id)
    (hP : db.findTask pid = some p)
    (hPs : db.findStep p.step_id = some ps)
    (hPm : p.type = "milestone")
    (hPc : p.cancelled = false)
    (hPproj : p.project_id = t.project_id) :
    ∀ db2, complete_task db gen now t.id = Except.ok db2 →
      ((∀ c ∈ db.tasks, c.parent_task_id = some pid → c.cancelled = false →
          c.id ≠ t.id → ∃ s, db.findStep c.step_id = some s ∧
            s.position = terminal.position) →
        ∀ nxt, stepAtPosition db t.project_id (ps.position + 1) = some nxt →
          db.findStep nxt.id = some nxt →
          (((db2.findTask pid).map (fun u => u.step_id) = some nxt.id) ∧
           ∃ suffix, db2.events = db.events ++ suffix ∧
             (∃ e ∈ suffix, e.type = "task_moved" ∧
                e.payload.getStr ("task_id") = some pid ∧
                e.payload.getStr ("new_step_id") = some nxt.id) ∧
             (nxt.position = terminal.position →
               ∃ e ∈ suffix, e.type = "milestone_completed" ∧
                 e.payload.getStr ("task_id") = some pid)))
      ∧ ((∃ c ∈ db.tasks, c.parent_task_id = some pid ∧
            c.cancelled = false ∧ c.id ≠ t.id ∧
            ∃ s, db.findStep c.step_id = some s ∧
              s.position ≠ terminal.position) →
          (db2.findTask pid).map (fun u => u.step_id) = some p.step_id) := by
  intro db2 h
  unfold complete_task at h
  simp only [ht, hcs] at h
  rw [if_neg (by simp [hcanc])] at h
  simp only [hterm] at h
  rw [if_neg hnt] at h
  simp only [hpar] at h
  rw [if_pos (show optTruthy (some pid) = true by simp [optTruthy, hpid])]
    at h
  simp only [Option.getD_some] at h
  have htmem : t ∈ db.tasks := List.mem_of_find?_eq_some ht
  have hmemU : (({ t with step_id := terminal.id, updated_at := now } : Task), terminal) ∈ joinedChildren (db.updateTask t.id (fun u => { u with step_id := terminal.id, updated_at := now })) pid := by
    refine List.mem_filterMap.mpr ⟨({ t with step_id := terminal.id, updated_at := now } : Task), ?_, ?_⟩
    · refine List.mem_map.mpr ⟨t, htmem, ?_⟩
      rw [if_pos rfl]
    · rw [if_pos (by simp [hpar, hcanc])]
      have hstep : ((db.updateTask t.id (fun u => { u with step_id := terminal.id, updated_at := now })).findStep (({ t with step_id := terminal.id, updated_at := now } : Task)).step_id) = some terminal := hfterm
      rw [hstep]
      rfl
  have hne : ¬ ((joinedChildren (db.updateTask t.id (fun u => { u with step_id := terminal.id, updated_at := now })) pid).isEmpty = true) := by
    intro hempty
    rw [List.isEmpty_iff] at hempty
    rw [hempty] at hmemU
    cases hmemU
  have hneq2 : t.id ≠ pid := Ne.symm hPneq
  refine ⟨?_, ?_⟩
  · intro hChild nxt hnxt hfnxt
    have hall : ((joinedChildren (db.updateTask t.id (fun u => { u with step_id := terminal.id, updated_at := now })) pid).all (fun c => c.2.position = terminal.position)) = true := by
      rw [List.all_eq_true]
      intro pair hmem
      obtain ⟨a, haU, hfa⟩ := List.mem_filterMap.mp hmem
      simp only [DB.updateTask, List.mem_map] at haU
      obtain ⟨c, hcdb, rfl⟩ := haU
      by_cases hct : c.id = t.id
      · rw [if_pos hct] at hfa
        split at hfa
        · have hs2 : ((db.updateTask t.id (fun u => { u with step_id := terminal.id, updated_at := now })).findStep (({ c with step_id := terminal.id, updated_at := now } : Task)).step_id) = some terminal := hfterm
          rw [hs2] at hfa
          obtain rfl := Option.some.inj hfa
          simp
        · cases hfa
      · rw [if_neg hct] at hfa
        split at hfa
        · rename_i hcond
          obtain ⟨s, hsf, hspos⟩ := hChild c hcdb hcond.1 hcond.2 hct
          have hs3 : ((db.updateTask t.id (fun u => { u with step_id := terminal.id, updated_at := now })).findStep c.step_id) = some s := hsf
          rw [hs3] at hfa
          obtain rfl := Option.some.inj hfa
          simp [hspos]
        · cases hfa
    simp only [siblingFuel] at h
    simp only [check_sibling_completion] at h
    simp only [findTask_cascade, findTask_emit_event, findStep_cascade,
      findStep_emit_event, findStep_updateTask, joinedChildren_cascade,
      joinedChildren_emit_event, stepAtPosition_cascade,
      stepAtPosition_emit_event, stepAtPosition_updateTask,
      terminalStep_cascade, terminalStep_emit_event,
      terminalStep_updateTask] at h
    rw [findTask_updateTask_other db t.id pid (fun u => { u with step_id := terminal.id, updated_at := now }) (fun u => rfl) hneq2] at h
    simp only [hP, hPs] at h
    rw [if_neg (by simp [hPm, hPc])] at h
    rw [if_neg hne] at h
    simp only [hPproj, hterm, hnxt] at h
    rw [if_neg (by simp [hall])] at h
    by_cases hposT : nxt.position = terminal.position
    · rw [if_pos hposT] at h
      by_cases hpp : optTruthy p.parent_task_id = true
      · rw [if_pos hpp] at h
        split at h
        · cases h
        · rename_i db6 ctrx heq
          simp only [Except.ok.injEq] at h
          obtain rfl := h
          constructor
          · have hstuckrow := check_sibling_preserves_stuck gen now
              _ _ _ _ _ _ pid ({ p with step_id := nxt.id, updated_at := now }) heq
              (by
                simp only [findTask_emit_event, findTask_updateTask _ pid
                  (fun u => { u with step_id := nxt.id, updated_at := now })
                  (fun u => rfl), findTask_cascade]
                rw [findTask_updateTask_other db t.id pid (fun u => { u with step_id := terminal.id, updated_at := now }) (fun u => rfl) hneq2, hP]
                rfl)
              (by
                intro s hs
                have hfs2 : db.findStep nxt.id = some s := hs
                rw [hfnxt] at hfs2
                obtain rfl := Option.some.inj hfs2
                show stepAtPosition db p.project_id (nxt.position + 1) =
                  none
                rw [hPproj, hposT]
                exact stepAtPosition_above_terminal db t.project_id
                  terminal hterm)
            rw [hstuckrow]
            rfl
          · obtain ⟨s2, hs2⟩ := check_sibling_events_mono gen now
              _ _ _ _ _ _ heq
            simp only [emit_event_events, updateTask_events,
              cascade_unblock_events_eq, List.append_assoc,
              List.singleton_append, List.cons_append] at hs2 ⊢
            refine ⟨_, hs2, ?_, ?_⟩
            · simp only [List.mem_cons, List.mem_append]
              exact ⟨_, Or.inr (Or.inr (Or.inr (Or.inl rfl))),
                rfl, rfl, rfl⟩
            · intro _
              simp only [List.mem_cons, List.mem_append]
              exact ⟨_, Or.inr (Or.inr (Or.inr (Or.inr (Or.inr
                (Or.inl rfl))))), rfl, rfl⟩
      · rw [if_neg hpp] at h
        simp only [Except.ok.injEq] at h
        obtain rfl := h
        constructor
        · simp only [findTask_emit_event, findTask_updateTask _ pid
            (fun u => { u with step_id := nxt.id, updated_at := now })
            (fun u => rfl), findTask_cascade]
          rw [findTask_updateTask_other db t.id pid (fun u => { u with step_id := terminal.id, updated_at := now }) (fun u => rfl) hneq2, hP]
          rfl
        · simp only [emit_event_events, updateTask_events,
            cascade_unblock_events_eq, List.append_assoc,
            List.singleton_append, List.cons_append]
          refine ⟨_, rfl, ?_, ?_⟩
          · simp only [List.mem_cons, List.mem_append]
            exact ⟨_, Or.inr (Or.inr (Or.inr (Or.inl rfl))),
              rfl, rfl, rfl⟩
          · intro _
            simp only [List.mem_cons, List.mem_append]
            exact ⟨_, Or.inr (Or.inr (Or.inr (Or.inr (Or.inr
              (Or.inl rfl))))), rfl, rfl⟩
    · rw [if_neg hposT] at h
      simp only [Except.ok.injEq] at h
      obtain rfl := h
      constructor
      · simp only [findTask_emit_event, findTask_updateTask _ pid
          (fun u => { u with step_id := nxt.id, updated_at := now })
          (fun u => rfl), findTask_cascade]
        rw [findTask_updateTask_other db t.id pid (fun u => { u with step_id := terminal.id, updated_at := now }) (fun u => rfl) hneq2, hP]
        rfl
      · simp only [emit_event_events, updateTask_events,
          cascade_unblock_events_eq, List.append_assoc,
          List.singleton_append, List.cons_append]
        refine ⟨_, rfl, ?_, ?_⟩
        · simp only [List.mem_cons, List.mem_append]
          exact ⟨_, Or.inr (Or.inr (Or.inr (Or.inl rfl))),
            rfl, rfl, rfl⟩
        · intro hpos
          exact absurd hpos hposT
  · intro hcw
    obtain ⟨c, hcdb, hcp, hcc, hcnt, s, hcs2, hsp⟩ := hcw
    have hallF : ((joinedChildren (db.updateTask t.id (fun u => { u with step_id := terminal.id, updated_at := now })) pid).all (fun c => c.2.position = terminal.position)) = false := by
      rw [List.all_eq_false]
      refine ⟨(c, s), ?_, ?_⟩
      · refine List.mem_filterMap.mpr ⟨c, ?_, ?_⟩
        · simp only [DB.updateTask, List.mem_map]
          exact ⟨c, hcdb, by simp [hcnt]⟩
        · rw [if_pos ⟨hcp, hcc⟩]
          have hcs3 : ((db.updateTask t.id (fun u => { u with step_id := terminal.id, updated_at := now })).findStep c.step_id) = some s := hcs2
          rw [hcs3]
          rfl
      · simp [hsp]
    simp only [siblingFuel] at h
    simp only [check_sibling_completion] at h
    simp only [findTask_cascade, findTask_emit_event, findStep_cascade,
      findStep_emit_event, findStep_updateTask, joinedChildren_cascade,
      joinedChildren_emit_event, stepAtPosition_cascade,
      stepAtPosition_emit_event, stepAtPosition_updateTask,
      terminalStep_cascade, terminalStep_emit_event,
      terminalStep_updateTask] at h
    rw [findTask_updateTask_other db t.id pid (fun u => { u with step_id := terminal.id, updated_at := now }) (fun u => rfl) hneq2] at h
    simp only [hP, hPs] at h
    rw [if_neg (by simp [hPm, hPc])] at h
    rw [if_neg hne] at h
    simp only [hPproj, hterm] at h
    rw [if_pos (by simp [hallF])] at h
    simp only [Except.ok.injEq] at h
    obtain rfl := h
    simp only [findTask_cascade, findTask_emit_event]
    rw [findTask_updateTask_other db t.id pid (fun u => { u with step_id := terminal.id, updated_at := now }) (fun u => rfl) hneq2, hP]
    rfl

/-- Witness for C4 at concrete input: completing tC1, the only child of
milestone tM (both at Plan), makes all children of tM terminal, so tM
advances from position 0 to the Implement step s1 at position 1. -/
theorem c4_sibling_auto_advance_witness :
    ∃ db2, complete_task exDBm wGen ("T1") ("tC1") = Except.ok db2 ∧
      (db2.findTask ("tM")).map (fun u => u.step_id) = some ("s1") := by
  obtain ⟨db2, hok⟩ :
      ∃ db2, complete_task exDBm wGen ("T1") ("tC1") = Except.ok db2 :=
    ⟨_, rfl⟩
  refine ⟨db2, hok, ?_⟩
  have hChild : ∀ c ∈ exDBm.tasks, c.parent_task_id = some ("tM") →
      c.cancelled = false → c.id ≠ ("tC1") →
      ∃ s, exDBm.findStep c.step_id = some s ∧
        s.position = exStep3.position := by
    intro c hc hp hcc hne
    have hc2 : c ∈ [exTaskA, exTaskM, exTaskC1] := hc
    simp only [List.mem_cons, List.not_mem_nil, or_false] at hc2
    rcases hc2 with rfl | rfl | rfl
    · exact absurd hp (by decide)
    · exact absurd hp (by decide)
    · exact absurd rfl hne
  exact ((c4_sibling_auto_advance exDBm wGen ("T1") exTaskC1 exTaskM
    ("tM") exStep0 exStep0 exStep3 (by decide) (by decide) (by decide)
    (by decide) (by decide) (by decide) (by decide) (by decide)
    (by decide) (by decide) (by decide) (by decide) (by decide)
    (by decide) db2 hok).1 hChild exStep1 (by decide) (by decide)).1

/-- Fixture non-milestone parent tN with one child tC3, both at Plan. -/
def exTaskN : Task :=
  ⟨"tN", "p1", none, "N", "", "s0", false, "task", false, none, none,
   none, none, "T0", "T0"⟩

/-- Fixture child tC3 of the non-milestone parent tN, at Plan. -/
def exTaskC3 : Task :=
  ⟨"tC3", "p1", some ("tN"), "C3", "", "s0", false, "task", false, none,
   none, none, none, "T0", "T0"⟩

/-- Fixture database with the non-milestone parent and its child. -/
def exDBn : DB := { exDB with tasks := [exTaskN, exTaskC3] }

/-- Counterexample to the literal C4: completing tC3, the only child of
the non-milestone parent tN, leaves every non-cancelled child of tN at
the terminal step s3 while a step at position(tN) + 1 exists, yet tN does
not move (it stays at s0) and no task_moved event for tN is emitted,
because the code advances only non-cancelled milestone parents. -/
theorem c4_counterexample :
    ∃ db2, complete_task exDBn wGen ("T1") ("tC3") = Except.ok db2 ∧
      (∀ c ∈ db2.tasks, c.parent_task_id = some ("tN") →
        c.cancelled = false → c.step_id = ("s3")) ∧
      stepAtPosition exDBn ("p1") (0 + 1) = some exStep1 ∧
      (db2.findTask ("tN")).map (fun u => u.step_id) = some ("s0") ∧
      ∀ e ∈ db2.events, e.type = ("task_moved") →
        e.payload.getStr ("task_id") ≠ some ("tN") := by
  refine ⟨_, rfl, ?_, ?_, ?_, ?_⟩ <;> decide

/-- C2 (amended): each of the ten event-emitting Tool Surface mutations
appends, on success, exactly one primary event row of its designated type
to the events table in the same commit as its data writes; approve_plan
additionally appends only secondary task_ready rows after its primary row.
(create_workflow_steps, the eleventh mutation the claim lists, is handled
separately: it appends no event row at all.) -/
theorem c2_primary_event_per_mutation :
    (∀ env db gen now ti de rp bb db2,
      create_project env db gen now ti de rp bb = Except.ok db2 →
      ∃ e, db2.events = db.events ++ [e] ∧ e.type = "project_created") ∧
    (∀ db gen now ti de sid pid par ty db2,
      create_task db gen now ti de sid pid par ty = Except.ok db2 →
      ∃ e, db2.events = db.events ++ [e] ∧ e.type = "task_created") ∧
    (∀ db gen now tid sid db2,
      move_task db gen now tid sid = Except.ok db2 →
      ∃ e, db2.events = db.events ++ [e] ∧ e.type = "task_moved") ∧
    (∀ db gen now tid db2,
      cancel_task db gen now tid = Except.ok db2 →
      ∃ e, db2.events = db.events ++ [e] ∧ e.type = "task_cancelled") ∧
    (∀ db gen now tid db2,
      uncancel_task db gen now tid = Except.ok db2 →
      ∃ e, db2.events = db.events ++ [e] ∧ e.type = "task_uncancelled") ∧
    (∀ db gen now tid c ar db2,
      add_comment db gen now tid c ar = Except.ok db2 →
      ∃ e, db2.events = db.events ++ [e] ∧ e.type = "comment_added") ∧
    (∀ db gen now pd sc db2,
      add_dependency db gen now pd sc = Except.ok db2 →
      ∃ e, db2.events = db.events ++ [e] ∧ e.type = "dependency_created") ∧
    (∀ db gen now did db2,
      remove_dependency db gen now did = Except.ok db2 →
      ∃ e, db2.events = db.events ++ [e] ∧ e.type = "dependency_removed") ∧
    (∀ db gen now tid db2,
      approve_plan db gen now tid = Except.ok db2 →
      ∃ e rest, db2.events = db.events ++ e :: rest ∧
        e.type = "plan_approved" ∧ ∀ e2 ∈ rest, e2.type = "task_ready") ∧
    (∀ db gen now tid out db2,
      set_task_output db gen now tid out = Except.ok db2 →
      ∃ e, db2.events = db.events ++ [e] ∧ e.type = "task_updated") := by
  refine ⟨?_, ?_, ?_, ?_, ?_, ?_, ?_, ?_, ?_, ?_⟩
  · intro env db gen now ti de rp bb db2 h
    simp only [create_project] at h
    repeat split at h
    all_goals first
      | (obtain rfl := Except.ok.inj h
         exact ⟨_, rfl, rfl⟩)
      | cases h
  · intro db gen now ti de sid pid par ty db2 h
    unfold create_task at h
    cases hfs : db.findStep sid with
    | none =>
      simp only [hfs] at h
      cases h
    | some step =>
      simp only [hfs] at h
      by_cases hsp : step.project_id ≠ pid
      · rw [if_pos hsp] at h
        cases h
      · rw [if_neg hsp] at h
        cases hfp : db.findProject pid with
        | none =>
          simp only [hfp] at h
          cases h
        | some proj =>
          simp only [hfp] at h
          by_cases hpar : optTruthy par = true
          · rw [if_pos hpar] at h
            cases hft : db.findTask (par.getD ("")) with
            | none =>
              simp only [hft] at h
              cases h
            | some q =>
              simp only [hft] at h
              by_cases hty : ty ≠ "task" ∧ ty ≠ "research" ∧
                ty ≠ "milestone"
              · rw [if_pos hty] at h
                cases h
              · rw [if_neg hty] at h
                obtain rfl := Except.ok.inj h
                exact ⟨_, rfl, rfl⟩
          · rw [if_neg hpar] at h
            simp only [] at h
            by_cases hty : ty ≠ "task" ∧ ty ≠ "research" ∧
              ty ≠ "milestone"
            · rw [if_pos hty] at h
              cases h
            · rw [if_neg hty] at h
              obtain rfl := Except.ok.inj h
              exact ⟨_, rfl, rfl⟩
  · intro db gen now tid sid db2 h
    simp only [move_task] at h
    repeat split at h
    all_goals first
      | (obtain rfl := Except.ok.inj h
         exact ⟨_, rfl, rfl⟩)
      | cases h
  · intro db gen now tid db2 h
    simp only [cancel_task] at h
    repeat split at h
    all_goals first
      | (obtain rfl := Except.ok.inj h
         exact ⟨_, rfl, rfl⟩)
      | cases h
  · intro db gen now tid db2 h
    simp only [uncancel_task] at h
    repeat split at h
    all_goals first
      | (obtain rfl := Except.ok.inj h
         exact ⟨_, rfl, rfl⟩)
      | cases h
  · intro db gen now tid c ar db2 h
    unfold add_comment at h
    by_cases har : ar = "" ∨ ar.trim = ""
    · rw [if_pos har] at h
      cases h
    · rw [if_neg har] at h
      cases hft : db.findTask tid with
      | none =>
        simp only [hft] at h
        cases h
      | some q =>
        simp only [hft] at h
        obtain rfl := Except.ok.inj h
        exact ⟨_, rfl, rfl⟩
  · intro db gen now pd sc db2 h
    unfold add_dependency at h
    by_cases hps : pd = sc
    · rw [if_pos hps] at h
      cases h
    · rw [if_neg hps] at h
      cases hfp : db.findTask pd with
      | none =>
        simp only [hfp] at h
        cases h
      | some tp =>
        simp only [hfp] at h
        cases hfs : db.findTask sc with
        | none =>
          simp only [hfs] at h
          cases h
        | some ts =>
          simp only [hfs] at h
          cases hfd : db.task_dependencies.find? (fun d =>
              d.predecessor_id = pd ∧ d.successor_id = sc) with
          | some d =>
            simp only [hfd] at h
            cases h
          | none =>
            simp only [hfd] at h
            by_cases hcy : has_cycle db pd sc = true
            · rw [if_pos hcy] at h
              cases h
            · rw [if_neg hcy] at h
              obtain rfl := Except.ok.inj h
              exact ⟨_, rfl, rfl⟩
  · intro db gen now did db2 h
    simp only [remove_dependency] at h
    repeat split at h
    all_goals first
      | (obtain rfl := Except.ok.inj h
         exact ⟨_, rfl, rfl⟩)
      | cases h
  · intro db gen now tid db2 h
    unfold approve_plan at h
    cases hft : db.findTask tid with
    | none =>
      simp only [hft] at h
      cases h
    | some task =>
      simp only [hft] at h
      cases hfs : db.findStep task.step_id with
      | none =>
        simp only [hfs] at h
        cases h
      | some st =>
        simp only [hfs] at h
        by_cases hm : task.type ≠ "milestone"
        · rw [if_pos hm] at h
          cases h
        · rw [if_neg hm] at h
          by_cases hap : task.plan_approved = true
          · rw [if_pos hap] at h
            cases h
          · rw [if_neg hap] at h
            by_cases hce : ((db.tasks.filter (fun t =>
                t.parent_task_id = some tid ∧
                t.cancelled = false)).isEmpty) = true
            · rw [if_pos hce] at h
              cases h
            · rw [if_neg hce] at h
              obtain rfl := Except.ok.inj h
              simp only [emit_event_events, updateTask_events,
                List.append_assoc, List.singleton_append]
              refine ⟨_, _, rfl, rfl, ?_⟩
              intro e2 he2
              obtain ⟨kc, hkc, rfl⟩ := List.mem_map.mp he2
              rfl
  · intro db gen now tid out db2 h
    simp only [set_task_output] at h
    repeat split at h
    all_goals first
      | (obtain rfl := Except.ok.inj h
         exact ⟨_, rfl, rfl⟩)
      | cases h

/-- Witness for C2 at concrete input: cancelling tA appends exactly one
task_cancelled row, and approving milestone tM appends one plan_approved
row followed only by task_ready rows. -/
theorem c2_primary_event_per_mutation_witness :
    (∃ db2, cancel_task exDB wGen ("T1") ("tA") = Except.ok db2 ∧
      ∃ e, db2.events = exDB.events ++ [e] ∧ e.type = "task_cancelled") ∧
    (∃ db3, approve_plan exDBm wGen ("T1") ("tM") = Except.ok db3 ∧
      ∃ e rest, db3.events = exDBm.events ++ e :: rest ∧
        e.type = "plan_approved" ∧ ∀ e2 ∈ rest, e2.type = "task_ready") := by
  constructor
  · obtain ⟨db2, hok⟩ :
        ∃ db2, cancel_task exDB wGen ("T1") ("tA") = Except.ok db2 :=
      ⟨_, rfl⟩
    exact ⟨db2, hok, c2_primary_event_per_mutation.2.2.2.1
      exDB wGen ("T1") ("tA") db2 hok⟩
  · obtain ⟨db3, hok⟩ :
        ∃ db3, approve_plan exDBm wGen ("T1") ("tM") = Except.ok db3 :=
      ⟨_, rfl⟩
    exact ⟨db3, hok, c2_primary_event_per_mutation.2.2.2.2.2.2.2.2.1
      exDBm wGen ("T1") ("tM") db3 hok⟩

/-- Fixture project p3 that owns no workflow steps yet, so a fresh batch
starting at position 0 violates no workflow_steps UNIQUE constraint. -/
def exDBcw : DB := { exDB with projects := exDB.projects ++
  [⟨"p3", "Fresh", "", none, none, "active", "T0", "T0"⟩] }

/-- Counterexample to the literal C2: create_workflow_steps on the
step-free project p3 succeeds with a valid one-step batch, commits the
new workflow_steps row, and appends no event row at all, so not every
successful Tool Surface mutation inserts exactly one primary event row. -/
theorem c2_counterexample :
    ∃ db2, create_workflow_steps exDBcw wGen ("T1") ("p3")
        [⟨some ("Plan"), none, none, none⟩] = Except.ok db2 ∧
      db2.events = exDBcw.events ∧
      db2.workflow_steps ≠ exDBcw.workflow_steps := by
  refine ⟨_, rfl, rfl, by decide⟩

end VibeRelay
